import Mathlib

/-!
Verification development for the eshell remote-operations backend
(src-tauri: ssh_service.rs, state.rs, ops_agent/{store,openai,service}.rs).

Strings are shallowly embedded as lists of Unicode characters
(`List Char`), matching the Rust code's explicit `chars()`-based
processing; byte indices computed by the Rust code via `char_indices`
are represented directly as character positions.  File persistence and
network I/O are modelled as pure state transitions and explicit
oracles; timestamps and fresh UUIDs are supplied as parameters.
-/

namespace EShell

/-- Character-list model of Rust `String` / `&str`. -/
abbrev Str := List Char

/-- Converts a Lean string literal to its character-list model. -/
def chars (s : String) : Str := s.data

/-- Model of Rust `char::is_whitespace` (ASCII fragment, which is what
the code ever meets in commands, paths and planner payloads). -/
def isWs (c : Char) : Bool := c.isWhitespace

/-- Model of Rust `str::trim_start`. -/
def trimStart (s : Str) : Str := s.dropWhile isWs

/-- Model of Rust `str::trim_end`. -/
def trimEnd (s : Str) : Str := (s.reverse.dropWhile isWs).reverse

/-- Model of Rust `str::trim`. -/
def trim (s : Str) : Str := trimEnd (trimStart s)

/-- Applies `f` to the first element satisfying `p`, as Rust's
`iter_mut().find(...)` / `position(...)` followed by an in-place
mutation does. -/
def updateFirst (p : α → Bool) (f : α → α) : List α → List α
  | [] => []
  | x :: xs => if p x then f x :: xs else x :: updateFirst p f xs

/-! ## ssh_service.rs: path normalization and output trimming -/

/-- One full left-to-right non-overlapping replacement pass of `"//"`
by `"/"`, i.e. one evaluation of Rust `normalized.replace("//", "/")`. -/
def replaceDoubleSlashOnce : Str → Str
  | [] => []
  | [c] => [c]
  | c1 :: c2 :: rest =>
    if c1 = '/' ∧ c2 = '/' then '/' :: replaceDoubleSlashOnce rest
    else c1 :: replaceDoubleSlashOnce (c2 :: rest)

/-- Model of Rust `normalized.contains("//")`. -/
def hasDoubleSlash : Str → Bool
  | [] => false
  | [_] => false
  | c1 :: c2 :: rest => (c1 = '/' && c2 = '/') || hasDoubleSlash (c2 :: rest)

/-- The iteration of the Rust loop
`while normalized.contains("//") { normalized = normalized.replace("//", "/") }`,
bounded by an explicit pass counter. -/
def collapseSlashesGo : Nat → Str → Str
  | 0, s => s
  | fuel + 1, s =>
    if hasDoubleSlash s then collapseSlashesGo fuel (replaceDoubleSlashOnce s) else s

/-- Model of the Rust `while normalized.contains("//")` loop.  Every
pass that fires strictly shortens the string (see
`replaceDoubleSlashOnce_length_lt` below), so `s.length` passes always
reach the loop's fixed point; the explicit bound keeps the definition
structurally recursive. -/
def collapseSlashes (s : Str) : Str := collapseSlashesGo s.length s

/-- Model of Rust `value.replace('\\', "/")` (single-char pattern). -/
def backslashToSlash (s : Str) : Str := s.map (fun c => if c = '\\' then '/' else c)

/-- Model of Rust `str::trim_end_matches('/')`. -/
def dropTrailingSlashes (s : Str) : Str := (s.reverse.dropWhile (fun c => c == '/')).reverse

/-- Embeds `ssh_service.rs::normalize_remote_path`. -/
def normalize_remote_path (value : Str) : Str :=
  let normalized := backslashToSlash (trim value)
  if normalized = [] then ['/']
  else
    let n1 := collapseSlashes normalized
    let n2 := if n1.head? = some '/' then n1 else '/' :: n1
    let n3 := if 1 < n2.length then dropTrailingSlashes n2 else n2
    if n3 = [] then ['/'] else n3

/-- Embeds `ssh_service.rs::sanitize_cwd`. -/
def sanitize_cwd (value : Str) : Str :=
  if trim value = [] then ['/'] else normalize_remote_path (trim value)

/-- The sanitization of the printed `pwd` path exactly as the spec's
words describe it for claim C2: backslashes converted to slashes,
duplicate slashes collapsed, trailing slash stripped except for root.
Stated from the spec sentence, to be compared with `sanitize_cwd`. -/
def specSanitizePath (printed : Str) : Str :=
  let collapsed := collapseSlashes (backslashToSlash printed)
  let stripped := dropTrailingSlashes collapsed
  if stripped = [] then ['/'] else stripped

/-- `MAX_SESSION_LAST_OUTPUT_CHARS` from ssh_service.rs. -/
def MAX_SESSION_LAST_OUTPUT_CHARS : Nat := 16000

/-- Embeds `ssh_service.rs::trim_to_last_chars`: the Rust code computes
the byte index of the `drop_chars`-th character and drains the prefix
before it, which at character granularity is `List.drop`. -/
def trim_to_last_chars (value : Str) (maxChars : Nat) : Str :=
  if maxChars = 0 then []
  else if value.length ≤ maxChars then value
  else value.drop (value.length - maxChars)

/-- One step of `ssh_service.rs::append_session_output` on the session's
output buffer: push the chunk, then trim to the configured cap. -/
def append_chunk (buf chunk : Str) : Str :=
  trim_to_last_chars (buf ++ chunk) MAX_SESSION_LAST_OUTPUT_CHARS

/-- Embeds `ssh_service.rs::format_stdout_stderr`. -/
def format_stdout_stderr (stdout stderr : Str) : Str :=
  match trim stdout == ([] : Str), trim stderr == ([] : Str) with
  | false, false => stdout ++ '\n' :: stderr
  | false, true => stdout
  | true, false => stderr
  | true, true => []

/-- Embeds `ssh_service.rs::shell_quote`. -/
def shell_quote (value : Str) : Str :=
  '\'' :: (value.flatMap (fun c => if c = '\'' then chars "'\"'\"'" else [c])) ++ ['\'']

/-- Model of Rust `trimmed.strip_prefix("cd ")`. -/
def cdSpaceRest : Str → Option Str
  | 'c' :: 'd' :: ' ' :: rest => some rest
  | _ => none

/-- Embeds `ssh_service.rs::parse_cd_target`. -/
def parse_cd_target (command : Str) : Option (Option Str) :=
  let trimmed := trim command
  if trimmed = chars "cd" then some none
  else match cdSpaceRest trimmed with
    | some target => some (some (trim target))
    | none => none

/-! ## error.rs -/

/-- Embeds `error.rs::AppError`; each variant carries the rendering of
its payload. -/
inductive AppError
  | ioErr (msg : Str)
  | serdeJson (msg : Str)
  | ssh (msg : Str)
  | reqwest (msg : Str)
  | base64 (msg : Str)
  | notFound (msg : Str)
  | validation (msg : Str)
  | runtime (msg : Str)
deriving DecidableEq

/-- The `Display` rendering of `AppError` (thiserror `#[error(...)]`). -/
def AppError.render : AppError → Str
  | .ioErr m => chars "IO error: " ++ m
  | .serdeJson m => chars "JSON serialization error: " ++ m
  | .ssh m => chars "SSH error: " ++ m
  | .reqwest m => chars "HTTP client error: " ++ m
  | .base64 m => chars "base64 decode error: " ++ m
  | .notFound m => chars "record not found: " ++ m
  | .validation m => chars "validation failed: " ++ m
  | .runtime m => chars "runtime error: " ++ m

/-! ## state.rs: runtime session registry -/

/-- Embeds `models.rs::ShellSession`. -/
structure ShellSession where
  id : Str
  configId : Str
  configName : Str
  currentDir : Str
  lastOutput : Str
  createdAt : Str
  updatedAt : Str
deriving DecidableEq

/-- Embeds the runtime part of `state.rs::AppState`: the session map,
the status cache (only membership matters here) and the PTY command
channel map (only membership matters: a registered sender models a
live worker inbox). -/
structure AppState where
  sessions : List ShellSession
  statusCacheIds : List Str
  ptyChannelIds : List Str
deriving DecidableEq

/-- Embeds `AppState::get_session`. -/
def AppState.get_session (st : AppState) (sessionId : Str) : Except AppError ShellSession :=
  match st.sessions.find? (fun s => s.id == sessionId) with
  | some s => .ok s
  | none => .error (.notFound (chars "shell session " ++ sessionId))

/-- Embeds `AppState::mutate_session`: applies the closure to the
stored session and returns the post-mutation snapshot. -/
def AppState.mutate_session (st : AppState) (sessionId : Str) (mutator : ShellSession → ShellSession) :
    AppState × Except AppError ShellSession :=
  match st.sessions.find? (fun s => s.id == sessionId) with
  | none => (st, .error (.notFound (chars "shell session " ++ sessionId)))
  | some s =>
    let updated := mutator s
    ({ st with sessions := updateFirst (fun x => x.id == sessionId) (fun _ => updated) st.sessions },
      .ok updated)

/-- Embeds `AppState::remove_pty_channel` (the `Close` signal sent to
the worker is fire-and-forget and leaves no trace in this state). -/
def AppState.remove_pty_channel (st : AppState) (sessionId : Str) : AppState :=
  { st with ptyChannelIds := st.ptyChannelIds.filter (fun x => !(x == sessionId)) }

/-- Embeds `AppState::remove_session`: evicts the PTY channel first,
then errors with `NotFound` when no session was stored, otherwise also
drops the session and its cached status. -/
def AppState.remove_session (st : AppState) (sessionId : Str) : AppState × Except AppError Unit :=
  let st1 := st.remove_pty_channel sessionId
  if st1.sessions.any (fun s => s.id == sessionId) then
    ({ st1 with
        sessions := st1.sessions.filter (fun s => !(s.id == sessionId)),
        statusCacheIds := st1.statusCacheIds.filter (fun x => !(x == sessionId)) },
      .ok ())
  else
    (st1, .error (.notFound (chars "shell session " ++ sessionId)))

/-- Embeds `AppState::send_pty_command`: fails with `NotFound` when no
channel is registered for the id; a registered channel accepts the
command (the worker-side effect is outside this state). -/
def AppState.send_pty_command (st : AppState) (sessionId : Str) : Except AppError Unit :=
  if st.ptyChannelIds.any (fun x => x == sessionId) then .ok ()
  else .error (.notFound (chars "pty session " ++ sessionId))

/-! ## ssh_service.rs: session close and one-shot command execution -/

/-- Embeds `ssh_service.rs::close_shell_session`: `NotFound` from the
registry removal is converted into success. -/
def close_shell_session (st : AppState) (sessionId : Str) : AppState × Except AppError Unit :=
  match st.remove_session sessionId with
  | (st', .ok ()) => (st', .ok ())
  | (st', .error (.notFound _)) => (st', .ok ())
  | (st', .error e) => (st', .error e)

/-- Embeds `ssh_service.rs::pty_write_input`: empty input returns
success immediately, otherwise the `Input` command is routed to the
session's worker inbox. -/
def pty_write_input (st : AppState) (sessionId : Str) (data : Str) : Except AppError Unit :=
  if data = [] then .ok ()
  else st.send_pty_command sessionId

/-- Embeds `ssh_service.rs::pty_resize` (the dimension clamping does
not affect routing). -/
def pty_resize (st : AppState) (sessionId : Str) (_cols _rows : Nat) : Except AppError Unit :=
  st.send_pty_command sessionId

/-- Embeds `models.rs::CommandExecutionResult`. -/
structure CommandExecutionResult where
  sessionId : Str
  command : Str
  stdout : Str
  stderr : Str
  exitCode : Int
  currentDir : Str
  startedAt : Str
  finishedAt : Str
  durationMs : Nat
deriving DecidableEq

/-- Oracles and ambient data for one `execute_command` call: the
outcome of the SSH config lookup, of the connection attempt, of each
remote command run (`run_channel_command`), and the clock. -/
structure SshEnv where
  findConfig : Except AppError Unit
  connectResult : Except AppError Unit
  run : Str → Except AppError (Str × Str × Int)
  now : Str
  elapsedMs : Nat

/-- The remote command string built by the `cd` branch of
`execute_command`: `cd <currentDir> && cd <target> && pwd`. -/
def mkCdCommand (currentDir cdTarget : Str) : Str :=
  chars "cd " ++ shell_quote currentDir ++ chars " && cd " ++ cdTarget ++ chars " && pwd"

/-- The remote command string built by the plain branch of
`execute_command`: `cd <currentDir> && <command>`. -/
def mkExecCommand (currentDir command : Str) : Str :=
  chars "cd " ++ shell_quote currentDir ++ chars " && " ++ command

/-- Embeds `ssh_service.rs::execute_command`. -/
def execute_command (env : SshEnv) (st : AppState) (sessionId command : Str) :
    AppState × Except AppError CommandExecutionResult :=
  match st.get_session sessionId with
  | .error e => (st, .error e)
  | .ok session =>
  match env.findConfig with
  | .error e => (st, .error e)
  | .ok _ =>
  match env.connectResult with
  | .error e => (st, .error e)
  | .ok _ =>
  let trimmed := trim command
  if trimmed = [] then (st, .error (.validation (chars "command cannot be empty")))
  else
    match parse_cd_target trimmed with
    | some target =>
      let cdTarget := target.getD (chars "~")
      let cdCmd := mkCdCommand session.currentDir cdTarget
      match env.run cdCmd with
      | .error e => (st, .error e)
      | .ok (stdout, stderr, exitCode) =>
        let afterMutate :=
          if exitCode = 0 then
            let newDir := sanitize_cwd (trim stdout)
            st.mutate_session sessionId (fun entry =>
              { entry with currentDir := newDir, lastOutput := trim stdout, updatedAt := env.now })
          else (st, .ok session)
        match afterMutate with
        | (st', .error e) => (st', .error e)
        | (st', .ok _) =>
          match st'.get_session sessionId with
          | .error e => (st', .error e)
          | .ok fresh =>
            (st', .ok {
              sessionId := sessionId, command := command,
              stdout := stdout, stderr := stderr, exitCode := exitCode,
              currentDir := fresh.currentDir,
              startedAt := env.now, finishedAt := env.now, durationMs := env.elapsedMs })
    | none =>
      let execCmd := mkExecCommand session.currentDir command
      match env.run execCmd with
      | .error e => (st, .error e)
      | .ok (stdout, stderr, exitCode) =>
        match st.mutate_session sessionId (fun entry =>
            { entry with lastOutput := format_stdout_stderr stdout stderr, updatedAt := env.now }) with
        | (st', .error e) => (st', .error e)
        | (st', .ok _) =>
          (st', .ok {
            sessionId := sessionId, command := command,
            stdout := stdout, stderr := stderr, exitCode := exitCode,
            currentDir := session.currentDir,
            startedAt := env.now, finishedAt := env.now, durationMs := env.elapsedMs })

/-! ## ops_agent/types.rs -/

/-- Embeds `OpsAgentRole`. -/
inductive OpsAgentRole
  | system
  | user
  | assistant
  | tool
deriving DecidableEq, BEq

/-- Embeds `OpsAgentToolKind`. -/
inductive OpsAgentToolKind
  | none
  | readShell
  | writeShell
deriving DecidableEq, BEq

/-- Embeds `OpsAgentActionStatus`. -/
inductive OpsAgentActionStatus
  | pending
  | rejected
  | executed
  | failed
deriving DecidableEq, BEq

/-- Embeds `OpsAgentMessage`. -/
structure OpsAgentMessage where
  id : Str
  role : OpsAgentRole
  content : Str
  createdAt : Str
  toolKind : Option OpsAgentToolKind
deriving DecidableEq

/-- Embeds `OpsAgentConversation`. -/
structure OpsAgentConversation where
  id : Str
  title : Str
  sessionId : Option Str
  messages : List OpsAgentMessage
  createdAt : Str
  updatedAt : Str
deriving DecidableEq

/-- Embeds `OpsAgentPendingAction`. -/
structure OpsAgentPendingAction where
  id : Str
  conversationId : Str
  sessionId : Option Str
  command : Str
  reason : Str
  status : OpsAgentActionStatus
  createdAt : Str
  updatedAt : Str
  resolvedAt : Option Str
  executionOutput : Option Str
  executionExitCode : Option Int
deriving DecidableEq

/-- Embeds `OpsAgentData`, the in-memory contents of the agent store. -/
structure OpsAgentData where
  conversations : List OpsAgentConversation
  activeConversationId : Option Str
  pendingActions : List OpsAgentPendingAction
deriving DecidableEq

/-- Embeds `PlannedToolAction`. -/
structure PlannedToolAction where
  kind : OpsAgentToolKind
  command : Option Str
  reason : Option Str
deriving DecidableEq

/-- Embeds `PlannedAgentReply`. -/
structure PlannedAgentReply where
  reply : Str
  tool : PlannedToolAction
deriving DecidableEq

/-- Embeds `OpsAgentStreamStage`. -/
inductive OpsAgentStreamStage
  | started
  | delta
  | toolRead
  | requiresApproval
  | completed
  | error
deriving DecidableEq, BEq

/-- Embeds `OpsAgentStreamEvent`. -/
structure OpsAgentStreamEvent where
  runId : Str
  conversationId : Str
  stage : OpsAgentStreamStage
  chunk : Option Str
  fullAnswer : Option Str
  pendingAction : Option OpsAgentPendingAction
  error : Option Str
  createdAt : Str
deriving DecidableEq

/-- Embeds `OpsAgentStreamEvent::new` (all optional fields empty). -/
def OpsAgentStreamEvent.mk0 (runId conversationId : Str) (stage : OpsAgentStreamStage)
    (now : Str) : OpsAgentStreamEvent :=
  { runId := runId, conversationId := conversationId, stage := stage,
    chunk := none, fullAnswer := none, pendingAction := none, error := none, createdAt := now }

/-- Embeds `OpsAgentResolveActionResult`. -/
structure OpsAgentResolveActionResult where
  action : OpsAgentPendingAction
  note : Str
deriving DecidableEq

/-! ## ops_agent/store.rs -/

/-- `DEFAULT_CONVERSATION_TITLE` from store.rs. -/
def DEFAULT_CONVERSATION_TITLE : Str := chars "New Conversation"

/-- `AUTO_TITLE_MAX_CHARS` from store.rs. -/
def AUTO_TITLE_MAX_CHARS : Nat := 10

/-- Embeds `store.rs::derive_conversation_title` (explicit titles are
compacted to 24 characters). -/
def derive_conversation_title (title : Option Str) : Str :=
  let source := trim (title.getD [])
  if source = [] then DEFAULT_CONVERSATION_TITLE
  else
    let compact := source.map (fun c => if c = '\n' then ' ' else c)
    let out := compact.take 24
    if 24 < compact.length then out ++ chars "..." else out

/-- Embeds `store.rs::should_auto_rename_title`. -/
def should_auto_rename_title (currentTitle : Str) : Bool :=
  let normalized := trim currentTitle
  normalized == ([] : Str) || normalized == DEFAULT_CONVERSATION_TITLE

/-- Embeds `store.rs::derive_title_from_first_user_prompt`. -/
def derive_title_from_first_user_prompt (prompt : Str) : Str :=
  let compact := trim (prompt.map (fun c =>
    if c = '\r' then ' ' else if c = '\n' then ' ' else c))
  if compact = [] then DEFAULT_CONVERSATION_TITLE
  else
    let out := compact.take AUTO_TITLE_MAX_CHARS
    if AUTO_TITLE_MAX_CHARS < compact.length then out ++ chars "..." else out

/-- Embeds `OpsAgentStore::get_conversation`. -/
def get_conversation (d : OpsAgentData) (id : Str) : Except AppError OpsAgentConversation :=
  match d.conversations.find? (fun c => c.id == id) with
  | some c => .ok c
  | none => .error (.notFound (chars "ops agent conversation " ++ id))

/-- The conversation record built by `create_conversation`. -/
def mkNewConversation (title : Option Str) (sessionId : Option Str)
    (newId now : Str) : OpsAgentConversation :=
  { id := newId, title := derive_conversation_title title, sessionId := sessionId,
    messages := [], createdAt := now, updatedAt := now }

/-- Embeds `OpsAgentStore::create_conversation`; the fresh UUID and the
clock reading are parameters (persistence is a faithful no-op on the
in-memory state). -/
def create_conversation (d : OpsAgentData) (title : Option Str) (sessionId : Option Str)
    (newId now : Str) : OpsAgentData × OpsAgentConversation :=
  let conversation := mkNewConversation title sessionId newId now
  ({ d with
      activeConversationId := some conversation.id,
      conversations := d.conversations ++ [conversation] }, conversation)

/-- The message record built by `append_message` from a trimmed
content string. -/
def mkStoredMessage (newId : Str) (role : OpsAgentRole) (trimmed : Str)
    (toolKind : Option OpsAgentToolKind) (now : Str) : OpsAgentMessage :=
  { id := newId, role := role, content := trimmed, createdAt := now, toolKind := toolKind }

/-- The in-place conversation mutation performed by `append_message`:
push the message, re-derive the title when the auto-title condition
held, and stamp `updatedAt`. -/
def applyMessageUpdate (message : OpsAgentMessage) (shouldAutoTitle : Bool) (now : Str)
    (c : OpsAgentConversation) : OpsAgentConversation :=
  let c1 := { c with messages := c.messages ++ [message] }
  let c2 := if shouldAutoTitle
    then { c1 with title := derive_title_from_first_user_prompt message.content } else c1
  { c2 with updatedAt := now }

/-- The auto-title trigger inside `append_message`: a User message
appended while the title is still blank or the placeholder and no User
message was stored before. -/
def shouldAutoTitleFor (role : OpsAgentRole) (conversation : OpsAgentConversation) : Bool :=
  role == OpsAgentRole.user
    && should_auto_rename_title conversation.title
    && !(conversation.messages.any (fun m => m.role == OpsAgentRole.user))

/-- Embeds `OpsAgentStore::append_message`. -/
def append_message (d : OpsAgentData) (conversationId : Str) (role : OpsAgentRole)
    (content : Str) (toolKind : Option OpsAgentToolKind) (newId now : Str) :
    OpsAgentData × Except AppError OpsAgentMessage :=
  let trimmed := trim content
  if trimmed = [] then (d, .error (.validation (chars "message content cannot be empty")))
  else match d.conversations.find? (fun c => c.id == conversationId) with
  | none => (d, .error (.notFound (chars "ops agent conversation " ++ conversationId)))
  | some conversation =>
    let message := mkStoredMessage newId role trimmed toolKind now
    let d1 := { d with
      conversations := updateFirst (fun c => c.id == conversationId)
        (applyMessageUpdate message (shouldAutoTitleFor role conversation) now)
        d.conversations,
      activeConversationId := some conversationId }
    (d1, .ok message)

/-- Embeds `OpsAgentStore::create_pending_action`. -/
def create_pending_action (d : OpsAgentData) (conversationId : Str) (sessionId : Option Str)
    (command reason : Str) (newId now : Str) :
    OpsAgentData × Except AppError OpsAgentPendingAction :=
  if trim command = [] then (d, .error (.validation (chars "tool command cannot be empty")))
  else if !(d.conversations.any (fun c => c.id == conversationId)) then
    (d, .error (.notFound (chars "ops agent conversation " ++ conversationId)))
  else
    let action : OpsAgentPendingAction :=
      { id := newId, conversationId := conversationId, sessionId := sessionId,
        command := trim command, reason := trim reason,
        status := .pending, createdAt := now, updatedAt := now,
        resolvedAt := none, executionOutput := none, executionExitCode := none }
    ({ d with pendingActions := d.pendingActions ++ [action] }, .ok action)

/-- Embeds `OpsAgentStore::get_pending_action`. -/
def get_pending_action (d : OpsAgentData) (actionId : Str) : Except AppError OpsAgentPendingAction :=
  match d.pendingActions.find? (fun a => a.id == actionId) with
  | some a => .ok a
  | none => .error (.notFound (chars "ops agent action " ++ actionId))

/-- Embeds `OpsAgentStore::update_action_status`: rewrites the action's
status, stamps `updatedAt`/`resolvedAt`, overwrites the execution
output and exit code with the given options, and touches the owning
conversation's `updatedAt`. -/
def update_action_status (d : OpsAgentData) (actionId : Str) (status : OpsAgentActionStatus)
    (output : Option Str) (exitCode : Option Int) (now : Str) :
    OpsAgentData × Except AppError OpsAgentPendingAction :=
  match d.pendingActions.find? (fun a => a.id == actionId) with
  | none => (d, .error (.notFound (chars "ops agent action " ++ actionId)))
  | some a =>
    let updated := { a with
      status := status, updatedAt := now, resolvedAt := some now,
      executionOutput := output, executionExitCode := exitCode }
    let newActions := updateFirst (fun x => x.id == actionId) (fun _ => updated) d.pendingActions
    let d1 := { d with pendingActions := newActions }
    let newConversations := updateFirst (fun c => c.id == a.conversationId)
      (fun c => { c with updatedAt := now }) d1.conversations
    let d2 := { d1 with conversations := newConversations }
    (d2, .ok updated)

/-- Embeds `OpsAgentStore::mark_action_rejected`. -/
def mark_action_rejected (d : OpsAgentData) (actionId : Str) (now : Str) :
    OpsAgentData × Except AppError OpsAgentPendingAction :=
  update_action_status d actionId .rejected none none now

/-- Embeds `OpsAgentStore::mark_action_executed`. -/
def mark_action_executed (d : OpsAgentData) (actionId : Str) (output : Str) (exitCode : Int)
    (now : Str) : OpsAgentData × Except AppError OpsAgentPendingAction :=
  update_action_status d actionId .executed (some output) (some exitCode) now

/-- Embeds `OpsAgentStore::mark_action_failed`. -/
def mark_action_failed (d : OpsAgentData) (actionId : Str) (output : Str) (now : Str) :
    OpsAgentData × Except AppError OpsAgentPendingAction :=
  update_action_status d actionId .failed (some output) none now

/-! ## ops_agent/openai.rs: planner payload handling -/

/-- Embeds the duck-typed `PlanToolPayload` decoded from planner JSON. -/
structure PlanToolPayload where
  kind : Option Str
  command : Option Str
  reason : Option Str
deriving DecidableEq

/-- Embeds the duck-typed `PlanPayload`. -/
structure PlanPayload where
  reply : Option Str
  tool : Option PlanToolPayload
deriving DecidableEq

/-- Model of Rust `str::to_ascii_lowercase`. -/
def asciiLower (s : Str) : Str := s.map Char.toLower

/-- Embeds `openai.rs::normalize_planned_reply`: a missing or blank
command string forces the tool kind to `None`. -/
def normalize_planned_reply (payload : PlanPayload) : PlannedAgentReply :=
  let reply := trim (payload.reply.getD [])
  let tool := payload.tool.getD { kind := some (chars "none"), command := none, reason := none }
  let kind :=
    if asciiLower (trim (tool.kind.getD [])) = chars "read_shell" then OpsAgentToolKind.readShell
    else if asciiLower (trim (tool.kind.getD [])) = chars "write_shell" then OpsAgentToolKind.writeShell
    else OpsAgentToolKind.none
  let command := tool.command.bind (fun item =>
    let trimmed := trim item
    if trimmed = [] then Option.none else some trimmed)
  let normalizedKind := if command = Option.none then OpsAgentToolKind.none else kind
  { reply := reply,
    tool := { kind := normalizedKind, command := command,
              reason := tool.reason.map (fun item => trim item) } }

/-- Model of Rust `str::find(char)`: index of the first occurrence. -/
def findCharIdx (c : Char) : Str → Option Nat
  | [] => none
  | x :: xs => if x = c then some 0 else (findCharIdx c xs).map (· + 1)

/-- Model of Rust `str::rfind(char)`: index of the last occurrence. -/
def rfindCharIdx (c : Char) (s : Str) : Option Nat :=
  (findCharIdx c s.reverse).map (fun i => s.length - 1 - i)

/-- Embeds `openai.rs::extract_json_payload`: the whole trimmed reply
when it is brace-delimited, otherwise the span from the first `\x7b` to
the last `\x7d`. -/
def extract_json_payload (raw : Str) : Option Str :=
  let trimmed := trim raw
  if trimmed.head? = some '{' ∧ trimmed.getLast? = some '}' then some trimmed
  else
    match findCharIdx '{' trimmed, rfindCharIdx '}' trimmed with
    | some start, some stop =>
      if start < stop then some ((trimmed.drop start).take (stop - start + 1)) else none
    | _, _ => none

/-- Embeds `openai.rs::parse_plan_payload`; the serde_json decoding of
the extracted text is an oracle parameter (`decode`), everything else
is the source's logic: a decodable payload is normalized, anything
else degrades to the raw text with tool kind `None`, and the function
never returns an error. -/
def parse_plan_payload (decode : Str → Option PlanPayload) (raw : Str) :
    Except AppError PlannedAgentReply :=
  let jsonText := (extract_json_payload raw).getD (trim raw)
  match decode jsonText with
  | some payload => .ok (normalize_planned_reply payload)
  | none =>
    .ok { reply := trim raw,
          tool := { kind := .none, command := none, reason := none } }

/-- The first balanced brace group of the reply, exactly as the spec's
words for claim C8 describe the extraction ("the first balanced
`\x7b...\x7d` substring"); stated from the spec sentence, to be compared
with `extract_json_payload`. -/
def scanBalanced : Str → Nat → Str → Option Str
  | [], _, _ => none
  | c :: rest, depth, acc =>
    if c = '{' then scanBalanced rest (depth + 1) (acc ++ [c])
    else if c = '}' then
      if depth ≤ 1 then some (acc ++ [c]) else scanBalanced rest (depth - 1) (acc ++ [c])
    else scanBalanced rest depth (acc ++ [c])

/-- See `scanBalanced`: the spec-worded "first balanced brace
substring" extraction for claim C8. -/
def firstBalancedBraces (raw : Str) : Option Str :=
  match findCharIdx '{' raw with
  | none => none
  | some i => scanBalanced (raw.drop i) 0 []

/-! ## ops_agent/service.rs -/

/-- Embeds `service.rs::split_stream_chunks`'s character loop: the
running chunk and its character count, flushed every `chunkSize`
characters, with the non-empty remainder flushed at the end. -/
def split_chunks_go (chunkSize : Nat) : Str → Str → Nat → List Str
  | [], current, _ => if current = [] then [] else [current]
  | c :: rest, current, count =>
    let current1 := current ++ [c]
    let count1 := count + 1
    if chunkSize ≤ count1 then current1 :: split_chunks_go chunkSize rest [] 0
    else split_chunks_go chunkSize rest current1 count1

/-- Embeds `service.rs::split_stream_chunks`. -/
def split_stream_chunks (text : Str) (chunkSize : Nat) : List Str :=
  if text = [] ∨ chunkSize = 0 then []
  else split_chunks_go chunkSize text [] 0

/-- Embeds `service.rs::normalized_reply`. -/
def normalized_reply (reply fallback : Str) : Str :=
  if trim reply = [] then fallback else reply

/-- Embeds `service.rs::format_execution_output`. -/
def format_execution_output (stdout stderr : Str) (exitCode : Int) : Str :=
  let sections :=
    (if trim stdout = [] then [] else [chars "stdout:" ++ '\n' :: trimEnd stdout])
    ++ (if trim stderr = [] then [] else [chars "stderr:" ++ '\n' :: trimEnd stderr])
  let sections := if sections = [] then [chars "<empty output>"] else sections
  let sections := sections ++ [chars "exitCode: " ++ chars (toString exitCode)]
  (sections.intersperse (chars "\n\n")).flatten

/-- Oracles and ambient data for one chat run or action resolution:
the planner call outcome, the shell executor outcome keyed by session
id and command (registry side effects of the executor live outside the
agent store), the summarizer outcome, a fresh-UUID supply and the
clock. -/
structure ChatEnv where
  planResult : Except AppError PlannedAgentReply
  exec : Str → Str → Except AppError (Str × Str × Int)
  summarizeResult : Except AppError Str
  freshId : Nat → Str
  now : Str

/-- Embeds `service.rs::resolve_pending_action` (the execution result
triple is stdout, stderr, exit code). -/
def resolve_pending_action (env : ChatEnv) (d : OpsAgentData) (actionId : Str) (approve : Bool) :
    OpsAgentData × Except AppError OpsAgentResolveActionResult :=
  match get_pending_action d actionId with
  | .error e => (d, .error e)
  | .ok action =>
  if action.status ≠ OpsAgentActionStatus.pending then
    (d, .error (.validation (chars "action is not pending and cannot be resolved again")))
  else if !approve then
    match mark_action_rejected d actionId env.now with
    | (d1, .error e) => (d1, .error e)
    | (d1, .ok updated) =>
      let notice := chars "Write-shell action rejected." ++ '\n' :: chars "Command: "
        ++ updated.command ++ '\n' :: chars "Reason: " ++ updated.reason
      let d2 := (append_message d1 updated.conversationId .assistant notice
        (some .writeShell) (env.freshId 0) env.now).1
      (d2, .ok { action := updated, note := chars "Action rejected" })
  else
    match action.sessionId with
    | none =>
      match mark_action_failed d actionId (chars "missing session id for write_shell") env.now with
      | (d1, .error e) => (d1, .error e)
      | (d1, .ok updated) =>
        (d1, .ok { action := updated, note := chars "Action failed: missing session id" })
    | some sessionId =>
      match env.exec sessionId action.command with
      | .ok (stdout, stderr, exitCode) =>
        let output := format_execution_output stdout stderr exitCode
        match mark_action_executed d actionId output exitCode env.now with
        | (d1, .error e) => (d1, .error e)
        | (d1, .ok updated) =>
          let toolMessage := chars "write_shell executed." ++ '\n' :: chars "Command: "
            ++ updated.command ++ '\n' :: chars "Exit: " ++ chars (toString exitCode)
            ++ '\n' :: output
          let d2 := (append_message d1 updated.conversationId .tool toolMessage
            (some .writeShell) (env.freshId 0) env.now).1
          (d2, .ok { action := updated, note := chars "Action approved and executed" })
      | .error err =>
        match mark_action_failed d actionId err.render env.now with
        | (d1, .error e) => (d1, .error e)
        | (d1, .ok updated) =>
          (d1, .ok { action := updated, note := chars "Action approved but execution failed" })

/-- The `Started` event of a run. -/
def mkStartedEvent (runId conversationId now : Str) : OpsAgentStreamEvent :=
  OpsAgentStreamEvent.mk0 runId conversationId .started now

/-- The `ToolRead` event of a run, carrying the executed command. -/
def mkToolReadEvent (runId conversationId command now : Str) : OpsAgentStreamEvent :=
  { OpsAgentStreamEvent.mk0 runId conversationId .toolRead now with
      chunk := some (chars "read_shell: " ++ command) }

/-- The `RequiresApproval` event of a run, carrying the full action. -/
def mkApprovalEvent (runId conversationId : Str) (action : OpsAgentPendingAction)
    (now : Str) : OpsAgentStreamEvent :=
  { OpsAgentStreamEvent.mk0 runId conversationId .requiresApproval now with
      pendingAction := some action }

/-- A `Delta` event of a run, carrying one answer chunk. -/
def mkDeltaEvent (runId conversationId chunk now : Str) : OpsAgentStreamEvent :=
  { OpsAgentStreamEvent.mk0 runId conversationId .delta now with chunk := some chunk }

/-- The terminal `Completed` event of a run. -/
def mkCompletedEvent (runId conversationId answer : Str)
    (pending : Option OpsAgentPendingAction) (now : Str) : OpsAgentStreamEvent :=
  { OpsAgentStreamEvent.mk0 runId conversationId .completed now with
      fullAnswer := some answer, pendingAction := pending }

/-- The terminal `Error` event emitted by `start_chat_stream`'s spawn
handler when `process_chat_stream` fails. -/
def mkErrorEvent (runId conversationId : Str) (err : AppError) (now : Str) : OpsAgentStreamEvent :=
  { OpsAgentStreamEvent.mk0 runId conversationId .error now with error := some err.render }

/-- Embeds `service.rs::stream_text_response`: one `Delta` event per
36-character chunk of the answer, in order. -/
def stream_text_response (runId conversationId text now : Str) : List OpsAgentStreamEvent :=
  (split_stream_chunks text 36).map (fun c => mkDeltaEvent runId conversationId c now)

/-- Embeds the tool-dispatch `match` of `service.rs::process_chat_stream`
(step 4 of a run): returns the updated store, the mid-run events it
emitted (`ToolRead` or `RequiresApproval`), and on success the created
pending action (if any) together with the assistant answer. -/
def dispatch_tool (env : ChatEnv) (d : OpsAgentData) (runId conversationId : Str)
    (sessionId : Option Str) (plan : PlannedAgentReply) :
    OpsAgentData × List OpsAgentStreamEvent
      × Except AppError (Option OpsAgentPendingAction × Str) :=
  match plan.tool.kind with
  | .none =>
    (d, [], .ok (none, normalized_reply plan.reply (chars "收到，我来帮你处理这个运维问题。")))
  | .readShell =>
    match plan.tool.command, sessionId with
    | Option.none, _ =>
      (d, [], .ok (none, normalized_reply plan.reply
        (chars "我没有拿到可执行的 read_shell 命令，请补充需求后重试。")))
    | _, Option.none =>
      (d, [], .ok (none, normalized_reply plan.reply
        (chars "当前没有可用 SSH 会话，无法执行 read_shell 工具。")))
    | some command, some sid =>
      match env.exec sid command with
      | .ok (stdout, stderr, exitCode) =>
        let output := format_execution_output stdout stderr exitCode
        let toolNote := chars "read_shell executed." ++ '\n' :: chars "Command: "
          ++ command ++ '\n' :: chars "Exit: " ++ chars (toString exitCode) ++ '\n' :: output
        let d1 := (append_message d conversationId .tool toolNote
          (some .readShell) (env.freshId 0) env.now).1
        (d1, [mkToolReadEvent runId conversationId command env.now],
          match get_conversation d1 conversationId with
          | .error e => .error e
          | .ok _ =>
            .ok (none, match env.summarizeResult with
              | .ok text => text
              | .error _ => normalized_reply plan.reply (chars "命令已执行，结果已返回。")))
      | .error err =>
        (d, [], .ok (none, normalized_reply plan.reply
          (chars "read_shell 执行失败：" ++ err.render)))
  | .writeShell =>
    match plan.tool.command with
    | Option.none =>
      (d, [], .ok (none, normalized_reply plan.reply
        (chars "我没有拿到可执行的 write_shell 命令，请补充需求后重试。")))
    | some command =>
      match create_pending_action d conversationId sessionId command
          ((plan.tool.reason).getD (chars "requested by agent")) (env.freshId 1) env.now with
      | (d1, .error e) => (d1, [], .error e)
      | (d1, .ok action) =>
        (d1, [mkApprovalEvent runId conversationId action env.now],
          .ok (some action, normalized_reply plan.reply
            (chars "我生成了一个 write_shell 操作，已进入待确认队列。请在前端确认或拒绝后执行。")))

/-- Embeds `service.rs::process_chat_stream`: emits `Started`, loads
the history, calls the planner, dispatches the tool, appends the
assistant answer, streams it as `Delta` events and finishes with
`Completed`; any propagated failure stops the run at that point. -/
def process_chat_stream (env : ChatEnv) (d : OpsAgentData) (runId conversationId : Str)
    (sessionId : Option Str) :
    OpsAgentData × List OpsAgentStreamEvent × Except AppError Unit :=
  match get_conversation d conversationId with
  | .error e => (d, [mkStartedEvent runId conversationId env.now], .error e)
  | .ok _ =>
  match env.planResult with
  | .error e => (d, [mkStartedEvent runId conversationId env.now], .error e)
  | .ok plan =>
    match dispatch_tool env d runId conversationId sessionId plan with
    | (d1, midEvents, .error e) =>
      (d1, mkStartedEvent runId conversationId env.now :: midEvents, .error e)
    | (d1, midEvents, .ok (pendingAction, assistantAnswer)) =>
      match append_message d1 conversationId .assistant assistantAnswer none
          (env.freshId 2) env.now with
      | (d2, .error e) =>
        (d2, mkStartedEvent runId conversationId env.now :: midEvents, .error e)
      | (d2, .ok _) =>
        (d2, mkStartedEvent runId conversationId env.now :: midEvents
          ++ stream_text_response runId conversationId assistantAnswer env.now
          ++ [mkCompletedEvent runId conversationId assistantAnswer pendingAction env.now],
          .ok ())

/-- Embeds the spawned part of `service.rs::start_chat_stream`: a
failing `process_chat_stream` is followed by a single terminal `Error`
event for the run. -/
def run_chat_stream (env : ChatEnv) (d : OpsAgentData) (runId conversationId : Str)
    (sessionId : Option Str) : OpsAgentData × List OpsAgentStreamEvent :=
  match process_chat_stream env d runId conversationId sessionId with
  | (d', events, .ok ()) => (d', events)
  | (d', events, .error e) => (d', events ++ [mkErrorEvent runId conversationId e env.now])

/-! ## General lemmas about the string model -/

theorem dropWhile_idem (p : Char → Bool) (l : Str) :
    (l.dropWhile p).dropWhile p = l.dropWhile p := by
  induction l with
  | nil => rfl
  | cons c cs ih =>
    by_cases h : p c
    · simp [List.dropWhile_cons, h, ih]
    · simp [List.dropWhile_cons, h]

theorem trimStart_idem (s : Str) : trimStart (trimStart s) = trimStart s :=
  dropWhile_idem isWs s

theorem trimEnd_append_exists (m : Str) : ∃ r, trimEnd m ++ r = m := by
  obtain ⟨a, ha⟩ := List.dropWhile_suffix (l := m.reverse) isWs
  refine ⟨a.reverse, ?_⟩
  have : trimEnd m ++ a.reverse = (a ++ m.reverse.dropWhile isWs).reverse := by
    rw [List.reverse_append]
    rfl
  rw [this, ha, List.reverse_reverse]

theorem trimStart_cons_false (c : Char) (t : Str) (h : trimStart (c :: t) = c :: t) :
    isWs c = false := by
  by_cases hc : isWs c
  · exfalso
    have h1 : trimStart (c :: t) = trimStart t := by
      simp [trimStart, List.dropWhile_cons, hc]
    rw [h1] at h
    have h2 := (List.dropWhile_suffix (l := t) isWs).length_le
    have h3 : (trimStart t).length = (c :: t).length := by rw [h]
    simp only [trimStart, List.length_cons] at h2 h3
    omega
  · simpa using hc

theorem trimStart_trimEnd (m : Str) (h : trimStart m = m) :
    trimStart (trimEnd m) = trimEnd m := by
  obtain ⟨r, hr⟩ := trimEnd_append_exists m
  cases hE : trimEnd m with
  | nil => rfl
  | cons c t' =>
    rw [hE] at hr
    have hm : m = c :: (t' ++ r) := by rw [← hr]; simp
    have hc : isWs c = false := by
      apply trimStart_cons_false c (t' ++ r)
      rw [← hm]
      exact h
    simp [trimStart, List.dropWhile_cons, hc]

theorem trimEnd_idem (m : Str) : trimEnd (trimEnd m) = trimEnd m := by
  simp [trimEnd, List.reverse_reverse, dropWhile_idem]

theorem trim_idem (s : Str) : trim (trim s) = trim s := by
  unfold trim
  rw [trimStart_trimEnd (trimStart s) (trimStart_idem s), trimEnd_idem]

/-! ## Output buffer trimming (claim C5) -/

theorem trim_to_last_chars_eq_drop (v : Str) (m : Nat) (hm : m ≠ 0) :
    trim_to_last_chars v m = v.drop (v.length - m) := by
  unfold trim_to_last_chars
  rw [if_neg hm]
  by_cases h : v.length ≤ m
  · rw [if_pos h]
    have hz : v.length - m = 0 := by omega
    rw [hz, List.drop_zero]
  · rw [if_neg h]

theorem trim_to_last_chars_absorb (x y : Str) (m : Nat) :
    trim_to_last_chars (trim_to_last_chars x m ++ y) m = trim_to_last_chars (x ++ y) m := by
  rcases Nat.eq_zero_or_pos m with rfl | hm
  · simp [trim_to_last_chars]
  · have hne : m ≠ 0 := by omega
    rw [trim_to_last_chars_eq_drop _ _ hne, trim_to_last_chars_eq_drop _ _ hne,
      trim_to_last_chars_eq_drop _ _ hne]
    have h1 : x.drop (x.length - m) ++ y = (x ++ y).drop (x.length - m) :=
      (List.drop_append_of_le_length (by omega)).symm
    rw [h1, List.drop_drop]
    congr 1
    simp only [List.length_drop, List.length_append]
    omega

theorem foldl_append_chunk (chunks : List Str) (x : Str) :
    chunks.foldl append_chunk (trim_to_last_chars x MAX_SESSION_LAST_OUTPUT_CHARS)
      = trim_to_last_chars (x ++ chunks.flatten) MAX_SESSION_LAST_OUTPUT_CHARS := by
  induction chunks generalizing x with
  | nil => simp
  | cons c cs ih =>
    simp only [List.foldl_cons, List.flatten_cons]
    have h1 : append_chunk (trim_to_last_chars x MAX_SESSION_LAST_OUTPUT_CHARS) c
        = trim_to_last_chars (x ++ c) MAX_SESSION_LAST_OUTPUT_CHARS := by
      unfold append_chunk
      exact trim_to_last_chars_absorb x c _
    rw [h1, ih (x ++ c), List.append_assoc]

theorem foldl_append_chunk_nil (chunks : List Str) :
    chunks.foldl append_chunk []
      = trim_to_last_chars chunks.flatten MAX_SESSION_LAST_OUTPUT_CHARS := by
  have h0 : ([] : Str) = trim_to_last_chars [] MAX_SESSION_LAST_OUTPUT_CHARS := rfl
  rw [h0, foldl_append_chunk, List.nil_append]

/-- Claim C5: appending any sequence of chunks to an (initially empty)
session output buffer leaves the full concatenation when its character
count is at most the 16000-character cap, and otherwise leaves exactly
the final 16000 characters of the concatenation — a character-boundary
suffix of it. -/
theorem C5_output_buffer_trimming (chunks : List Str) :
    (chunks.flatten.length ≤ 16000 → chunks.foldl append_chunk [] = chunks.flatten) ∧
    (16000 < chunks.flatten.length →
      chunks.foldl append_chunk []
          = chunks.flatten.drop (chunks.flatten.length - 16000) ∧
        (chunks.foldl append_chunk []).length = 16000 ∧
        chunks.foldl append_chunk [] <:+ chunks.flatten) := by
  rw [foldl_append_chunk_nil]
  constructor
  · intro h
    unfold trim_to_last_chars MAX_SESSION_LAST_OUTPUT_CHARS
    rw [if_neg (by omega), if_pos h]
  · intro h
    have hd : trim_to_last_chars chunks.flatten MAX_SESSION_LAST_OUTPUT_CHARS
        = chunks.flatten.drop (chunks.flatten.length - 16000) :=
      trim_to_last_chars_eq_drop _ _ (by decide)
    refine ⟨hd, ?_, ?_⟩
    · rw [hd]
      simp only [List.length_drop]
      omega
    · rw [hd]
      exact List.drop_suffix _ _

/-- Witness for C5 at a concrete overflowing input: a single chunk of
16001 characters leaves the last 16000 of them. -/
theorem C5_output_buffer_trimming_witness :
    16000 < ([List.replicate 16001 'a'] : List Str).flatten.length ∧
    ([List.replicate 16001 'a'] : List Str).foldl append_chunk []
      = ([List.replicate 16001 'a'] : List Str).flatten.drop
          (([List.replicate 16001 'a'] : List Str).flatten.length - 16000) := by
  have h : 16000 < ([List.replicate 16001 'a'] : List Str).flatten.length := by
    simp only [List.flatten_cons, List.flatten_nil, List.append_nil, List.length_replicate]
    norm_num
  exact ⟨h, ((C5_output_buffer_trimming [List.replicate 16001 'a']).2 h).1⟩

/-! ## Chunk splitting (service.rs::split_stream_chunks) -/

theorem split_chunks_go_flatten (k : Nat) (text current : Str) (count : Nat) :
    (split_chunks_go k text current count).flatten = current ++ text := by
  induction text generalizing current count with
  | nil =>
    by_cases h : current = []
    · simp [split_chunks_go, h]
    · simp [split_chunks_go, h]
  | cons c rest ih =>
    simp only [split_chunks_go]
    by_cases h : k ≤ count + 1
    · rw [if_pos h]
      simp [ih, List.append_assoc]
    · rw [if_neg h]
      rw [ih]
      simp [List.append_assoc]

theorem split_chunks_go_mem (k : Nat) (text : Str) :
    ∀ (current : Str) (count : Nat), count = current.length → count < k →
    ∀ chunk ∈ split_chunks_go k text current count, chunk ≠ [] ∧ chunk.length ≤ k := by
  induction text with
  | nil =>
    intro current count hcount hlt chunk hm
    by_cases h : current = []
    · simp [split_chunks_go, h] at hm
    · simp only [split_chunks_go, if_neg h, List.mem_singleton] at hm
      subst hm
      exact ⟨h, by omega⟩
  | cons c rest ih =>
    intro current count hcount hlt chunk hm
    simp only [split_chunks_go] at hm
    by_cases h : k ≤ count + 1
    · rw [if_pos h] at hm
      rcases List.mem_cons.mp hm with h1 | h2
      · subst h1
        refine ⟨by simp, ?_⟩
        simp only [List.length_append, List.length_cons, List.length_nil]
        omega
      · exact ih [] 0 rfl (by omega) chunk h2
    · rw [if_neg h] at hm
      exact ih (current ++ [c]) (count + 1) (by simp [hcount]) (by omega) chunk hm

theorem split_chunks_go_dropLast (k : Nat) (text : Str) :
    ∀ (current : Str) (count : Nat), count = current.length → count < k →
    ∀ chunk ∈ (split_chunks_go k text current count).dropLast, chunk.length = k := by
  induction text with
  | nil =>
    intro current count hcount hlt chunk hm
    by_cases h : current = []
    · simp [split_chunks_go, h] at hm
    · simp [split_chunks_go, h] at hm
  | cons c rest ih =>
    intro current count hcount hlt chunk hm
    simp only [split_chunks_go] at hm
    by_cases h : k ≤ count + 1
    · rw [if_pos h] at hm
      cases hgo : split_chunks_go k rest [] 0 with
      | nil => rw [hgo] at hm; simp at hm
      | cons y ys =>
        rw [hgo, List.dropLast_cons_of_ne_nil (by simp)] at hm
        rcases List.mem_cons.mp hm with h1 | h2
        · subst h1
          simp only [List.length_append, List.length_cons, List.length_nil]
          omega
        · have := ih [] 0 rfl (by omega) chunk
          rw [hgo] at this
          exact this h2
    · rw [if_neg h] at hm
      exact ih (current ++ [c]) (count + 1) (by simp [hcount]) (by omega) chunk hm

theorem split_stream_chunks_nil (k : Nat) : split_stream_chunks [] k = [] := by
  simp [split_stream_chunks]

theorem split_stream_chunks_flatten (text : Str) (k : Nat) (hk : k ≠ 0) :
    (split_stream_chunks text k).flatten = text := by
  unfold split_stream_chunks
  by_cases h : text = [] ∨ k = 0
  · rcases h with h | h
    · simp [h]
    · exact absurd h hk
  · rw [if_neg h]
    simpa using split_chunks_go_flatten k text [] 0

theorem split_stream_chunks_mem (text : Str) (k : Nat) (hk : 0 < k) :
    ∀ chunk ∈ split_stream_chunks text k, chunk ≠ [] ∧ chunk.length ≤ k := by
  intro chunk hm
  unfold split_stream_chunks at hm
  by_cases h : text = [] ∨ k = 0
  · rw [if_pos h] at hm
    simp at hm
  · rw [if_neg h] at hm
    exact split_chunks_go_mem k text [] 0 rfl hk chunk hm

theorem split_stream_chunks_dropLast (text : Str) (k : Nat) (hk : 0 < k) :
    ∀ chunk ∈ (split_stream_chunks text k).dropLast, chunk.length = k := by
  intro chunk hm
  unfold split_stream_chunks at hm
  by_cases h : text = [] ∨ k = 0
  · rw [if_pos h] at hm
    simp at hm
  · rw [if_neg h] at hm
    exact split_chunks_go_dropLast k text [] 0 rfl hk chunk hm

/-! ## Path sanitization (claim C2 groundwork) -/

theorem replaceDoubleSlashOnce_head? (s : Str) :
    (replaceDoubleSlashOnce s).head? = s.head? := by
  match s with
  | [] => rfl
  | [c] => rfl
  | c1 :: c2 :: rest =>
    by_cases h : c1 = '/' ∧ c2 = '/'
    · simp [replaceDoubleSlashOnce, h, h.1]
    · simp [replaceDoubleSlashOnce, h]

theorem collapseSlashesGo_head? (fuel : Nat) (s : Str) :
    (collapseSlashesGo fuel s).head? = s.head? := by
  induction fuel generalizing s with
  | zero => rfl
  | succ n ih =>
    rw [collapseSlashesGo]
    by_cases h : hasDoubleSlash s
    · rw [if_pos h, ih, replaceDoubleSlashOnce_head?]
    · rw [if_neg h]

theorem collapseSlashes_head? (s : Str) : (collapseSlashes s).head? = s.head? :=
  collapseSlashesGo_head? s.length s

theorem backslashToSlash_head_slash (s : Str) (h : s.head? = some '/') :
    (backslashToSlash s).head? = some '/' := by
  cases s with
  | nil => simp at h
  | cons c cs =>
    simp only [List.head?_cons, Option.some_inj] at h
    subst h
    simp [backslashToSlash]

/-- The code's `sanitize_cwd` coincides with the sanitization exactly
as claim C2's words describe it, on every already-trimmed printed path
that is absolute (`pwd` output always is). -/
theorem sanitize_cwd_eq_specSanitizePath (printed : Str)
    (htrim : trim printed = printed) (hhead : printed.head? = some '/') :
    sanitize_cwd printed = specSanitizePath printed := by
  have hne : printed ≠ [] := by
    intro h0
    rw [h0] at hhead
    simp at hhead
  have hbne : backslashToSlash printed ≠ [] := by
    intro h0
    exact hne (by simpa [backslashToSlash] using h0)
  have hch : (collapseSlashes (backslashToSlash printed)).head? = some '/' := by
    rw [collapseSlashes_head?]
    exact backslashToSlash_head_slash printed hhead
  unfold sanitize_cwd normalize_remote_path specSanitizePath
  simp only [htrim]
  rw [if_neg hne, if_neg hbne, if_pos hch]
  by_cases hlen : 1 < (collapseSlashes (backslashToSlash printed)).length
  · rw [if_pos hlen]
  · rw [if_neg hlen]
    have hroot : collapseSlashes (backslashToSlash printed) = ['/'] := by
      cases hc : collapseSlashes (backslashToSlash printed) with
      | nil => rw [hc] at hch; simp at hch
      | cons c cs =>
        rw [hc] at hch
        simp only [List.head?_cons, Option.some_inj] at hch
        cases cs with
        | nil => rw [hch]
        | cons c2 cs2 => rw [hc] at hlen; simp at hlen
    rw [hroot]
    rfl

/-! ## Registry lemmas and claim C2 -/

theorem find?_updateFirst_self (p : α → Bool) (f : α → α) (l : List α) (a : α)
    (h : l.find? p = some a) (hf : p (f a) = true) :
    (updateFirst p f l).find? p = some (f a) := by
  induction l with
  | nil => simp at h
  | cons x xs ih =>
    by_cases hx : p x
    · rw [List.find?_cons_of_pos _ hx] at h
      injection h with h
      subst h
      simp [updateFirst, hx, List.find?_cons_of_pos _ hf]
    · rw [List.find?_cons_of_neg _ hx] at h
      simp only [updateFirst, if_neg hx]
      rw [List.find?_cons_of_neg _ hx]
      exact ih h

theorem get_session_iff_find? (st : AppState) (sessionId : Str) (s : ShellSession) :
    st.get_session sessionId = .ok s ↔
      st.sessions.find? (fun x => x.id == sessionId) = some s := by
  unfold AppState.get_session
  cases h : st.sessions.find? (fun x => x.id == sessionId) <;> simp [h]

theorem parse_cd_target_nil : parse_cd_target [] = none := rfl

/-- Claim C2 (cd tracking): when a command parses as `cd`/`cd <target>`
and the remote run of `cd <currentDir> && cd <target> && pwd` returns
exit code zero, the session's directory becomes the sanitized printed
path and the returned `currentDirectory` is the post-update registry
value; a non-zero exit leaves the session untouched and returns the
old directory.  On absolute printed paths the code's sanitization is
exactly the claim's described one (`specSanitizePath`). -/
theorem C2_cd_tracking (env : SshEnv) (st : AppState) (sessionId command : Str)
    (session : ShellSession) (target : Option Str) (stdout stderr : Str) (exitCode : Int)
    (hsess : st.get_session sessionId = .ok session)
    (hconfig : env.findConfig = .ok ())
    (hconn : env.connectResult = .ok ())
    (hcd : parse_cd_target (trim command) = some target)
    (hrun : env.run (mkCdCommand session.currentDir (target.getD (chars "~")))
      = .ok (stdout, stderr, exitCode)) :
    (exitCode = 0 →
      (execute_command env st sessionId command).1.get_session sessionId
          = .ok { session with
              currentDir := sanitize_cwd (trim stdout),
              lastOutput := trim stdout, updatedAt := env.now } ∧
        (execute_command env st sessionId command).2
          = .ok {
              sessionId := sessionId, command := command,
              stdout := stdout, stderr := stderr, exitCode := exitCode,
              currentDir := sanitize_cwd (trim stdout),
              startedAt := env.now, finishedAt := env.now, durationMs := env.elapsedMs }) ∧
    (exitCode ≠ 0 →
      execute_command env st sessionId command
        = (st, .ok {
            sessionId := sessionId, command := command,
            stdout := stdout, stderr := stderr, exitCode := exitCode,
            currentDir := session.currentDir,
            startedAt := env.now, finishedAt := env.now, durationMs := env.elapsedMs })) ∧
    ((trim stdout).head? = some '/' →
      sanitize_cwd (trim stdout) = specSanitizePath (trim stdout)) := by
  have hne : trim command ≠ [] := by
    intro h0
    rw [h0, parse_cd_target_nil] at hcd
    exact Option.noConfusion hcd
  have hfind : st.sessions.find? (fun x => x.id == sessionId) = some session :=
    (get_session_iff_find? st sessionId session).mp hsess
  have hp := List.find?_some hfind
  refine ⟨?_, ?_, ?_⟩
  · intro hz
    subst hz
    have hfind' : (updateFirst (fun x => x.id == sessionId)
        (fun _ => { session with
          currentDir := sanitize_cwd (trim stdout),
          lastOutput := trim stdout, updatedAt := env.now }) st.sessions).find?
          (fun x => x.id == sessionId)
        = some { session with
            currentDir := sanitize_cwd (trim stdout),
            lastOutput := trim stdout, updatedAt := env.now } :=
      find?_updateFirst_self _ _ _ _ hfind hp
    constructor
    · simp only [execute_command, hsess, hconfig, hconn, if_neg hne, hcd, hrun,
        AppState.mutate_session, hfind, eq_self_iff_true, if_true,
        AppState.get_session, hfind']
    · simp only [execute_command, hsess, hconfig, hconn, if_neg hne, hcd, hrun,
        AppState.mutate_session, hfind, eq_self_iff_true, if_true,
        AppState.get_session, hfind']
  · intro hnz
    simp only [execute_command, hsess, hconfig, hconn, if_neg hne, hcd, hrun,
      if_neg hnz, AppState.get_session, hfind]
  · intro hhead
    exact sanitize_cwd_eq_specSanitizePath (trim stdout) (trim_idem stdout) hhead

/-! ## Session close semantics (claim C4) -/

theorem find?_filter_not_self (l : List ShellSession) (sessionId : Str) :
    (l.filter (fun s => !(s.id == sessionId))).find? (fun s => s.id == sessionId) = none := by
  rw [List.find?_eq_none]
  intro x hx
  have hpx := (List.mem_filter.mp hx).2
  simpa using hpx

theorem any_filter_not_self (l : List Str) (sessionId : Str) :
    (l.filter (fun x => !(x == sessionId))).any (fun x => x == sessionId) = false := by
  rw [← Bool.not_eq_true, List.any_eq_true]
  rintro ⟨x, hx, hpx⟩
  have := (List.mem_filter.mp hx).2
  rw [hpx] at this
  simp at this

theorem find?_eq_none_of_any_eq_false {α : Type} {p : α → Bool} {l : List α}
    (h : l.any p = false) : l.find? p = none := by
  rw [List.find?_eq_none]
  intro x hx hpx
  have : l.any p = true := List.any_eq_true.mpr ⟨x, hx, hpx⟩
  rw [h] at this
  exact Bool.false_ne_true this

theorem close_shell_session_eq (st : AppState) (sessionId : Str) :
    close_shell_session st sessionId
      = (if st.sessions.any (fun s => s.id == sessionId) then
          { sessions := st.sessions.filter (fun s => !(s.id == sessionId)),
            statusCacheIds := st.statusCacheIds.filter (fun x => !(x == sessionId)),
            ptyChannelIds := st.ptyChannelIds.filter (fun x => !(x == sessionId)) }
        else
          { sessions := st.sessions,
            statusCacheIds := st.statusCacheIds,
            ptyChannelIds := st.ptyChannelIds.filter (fun x => !(x == sessionId)) },
        .ok ()) := by
  unfold close_shell_session AppState.remove_session AppState.remove_pty_channel
  by_cases h : st.sessions.any (fun s => s.id == sessionId)
  · simp [h]
  · simp [h]

theorem close_shell_session_ok (st : AppState) (sessionId : Str) :
    (close_shell_session st sessionId).2 = .ok () := by
  rw [close_shell_session_eq]

theorem close_shell_session_state (st : AppState) (sessionId : Str) :
    (close_shell_session st sessionId).1.sessions.find? (fun s => s.id == sessionId) = none ∧
    (close_shell_session st sessionId).1.ptyChannelIds.any (fun x => x == sessionId) = false := by
  rw [close_shell_session_eq]
  by_cases h : st.sessions.any (fun s => s.id == sessionId)
  · rw [if_pos h]
    exact ⟨find?_filter_not_self st.sessions sessionId,
      any_filter_not_self st.ptyChannelIds sessionId⟩
  · rw [if_neg h]
    refine ⟨?_, any_filter_not_self st.ptyChannelIds sessionId⟩
    exact find?_eq_none_of_any_eq_false (Bool.not_eq_true _ |>.mp h)

/-- Claim C4, amended: after closing a session, `writeInput` with
non-empty data, `resize` and `execute` against that id all return
`NotFound`; a second `close` of the same id still succeeds; and
`writeInput` with empty data short-circuits to success without
consulting the registry. -/
theorem C4_close_then_operations (st : AppState) (sessionId : Str) :
    (close_shell_session st sessionId).2 = .ok () ∧
    (∀ data : Str, data ≠ [] →
      pty_write_input (close_shell_session st sessionId).1 sessionId data
        = .error (.notFound (chars "pty session " ++ sessionId))) ∧
    (∀ cols rows : Nat,
      pty_resize (close_shell_session st sessionId).1 sessionId cols rows
        = .error (.notFound (chars "pty session " ++ sessionId))) ∧
    (∀ (env : SshEnv) (command : Str),
      (execute_command env (close_shell_session st sessionId).1 sessionId command).2
        = .error (.notFound (chars "shell session " ++ sessionId))) ∧
    (close_shell_session (close_shell_session st sessionId).1 sessionId).2 = .ok () ∧
    pty_write_input (close_shell_session st sessionId).1 sessionId [] = .ok () := by
  obtain ⟨hfind, hpty⟩ := close_shell_session_state st sessionId
  refine ⟨close_shell_session_ok st sessionId, ?_, ?_, ?_, close_shell_session_ok _ sessionId, ?_⟩
  · intro data hdata
    unfold pty_write_input AppState.send_pty_command
    rw [if_neg hdata, if_neg (by rw [hpty]; exact Bool.false_ne_true)]
  · intro cols rows
    unfold pty_resize AppState.send_pty_command
    rw [if_neg (by rw [hpty]; exact Bool.false_ne_true)]
  · intro env command
    simp only [execute_command, AppState.get_session, hfind]
  · unfold pty_write_input
    rw [if_pos rfl]

/-- The concrete registry used by the C4 witness and counterexample:
one live session with one registered PTY inbox. -/
def sampleSessionS : ShellSession :=
  { id := chars "s", configId := [], configName := [],
    currentDir := ['/'], lastOutput := [], createdAt := [], updatedAt := [] }

/-- See `sampleSessionS`. -/
def sampleStateS : AppState :=
  { sessions := [sampleSessionS],
    statusCacheIds := [chars "s"],
    ptyChannelIds := [chars "s"] }

/-- Witness for C4 at a concrete one-session state. -/
theorem C4_close_then_operations_witness :
    (['x'] : Str) ≠ [] ∧
    pty_write_input ((close_shell_session sampleStateS (chars "s")).1) (chars "s") ['x']
      = .error (.notFound (chars "pty session " ++ chars "s")) := by
  refine ⟨by decide, ?_⟩
  exact (C4_close_then_operations sampleStateS (chars "s")).2.1 ['x'] (by decide)

/-- Counterexample to C4 as stated: after a successful close, a
`writeInput` with empty data returns success, not `NotFound`. -/
theorem C4_counterexample :
    pty_write_input ((close_shell_session sampleStateS (chars "s")).1) (chars "s") []
      = .ok () ∧
    ∀ m : Str,
      pty_write_input ((close_shell_session sampleStateS (chars "s")).1) (chars "s") []
        ≠ .error (.notFound m) := by
  constructor
  · rfl
  · intro m hm
    simp [pty_write_input] at hm

/-! ## Pending-action resolution (claim C1) -/

/-- Claim C1: once an action is Rejected, Executed or Failed, any
further `resolveAction` call (approve or reject) fails with
`ValidationError` and the whole store — in particular the action's
status, `resolvedAt`, output and exit code — is unchanged. -/
theorem C1_terminal_action_resolution (env : ChatEnv) (d : OpsAgentData) (actionId : Str)
    (approve : Bool) (action : OpsAgentPendingAction)
    (hget : get_pending_action d actionId = .ok action)
    (hstatus : action.status = .rejected ∨ action.status = .executed ∨
      action.status = .failed) :
    resolve_pending_action env d actionId approve
      = (d, .error (.validation (chars "action is not pending and cannot be resolved again"))) ∧
    get_pending_action (resolve_pending_action env d actionId approve).1 actionId
      = .ok action := by
  have hne : action.status ≠ OpsAgentActionStatus.pending := by
    rcases hstatus with h | h | h <;> rw [h] <;> intro hc <;> cases hc
  have hmain : resolve_pending_action env d actionId approve
      = (d, .error (.validation (chars "action is not pending and cannot be resolved again"))) := by
    unfold resolve_pending_action
    rw [hget]
    simp only [if_pos hne]
  refine ⟨hmain, ?_⟩
  rw [hmain]
  exact hget

/-- The concrete store used by the C1 witness: a single action already
Executed. -/
def sampleExecutedAction : OpsAgentPendingAction :=
  { id := chars "a1", conversationId := chars "c1", sessionId := none,
    command := chars "reboot", reason := chars "requested", status := .executed,
    createdAt := [], updatedAt := [], resolvedAt := some [],
    executionOutput := some [], executionExitCode := some 0 }

/-- See `sampleExecutedAction`. -/
def sampleStoreC1 : OpsAgentData :=
  { conversations := [], activeConversationId := none,
    pendingActions := [sampleExecutedAction] }

/-- See `sampleExecutedAction`: a throw-away environment whose oracles
are never consulted on the validation path. -/
def sampleChatEnv : ChatEnv :=
  { planResult := .error (.runtime []),
    exec := fun _ _ => .error (.runtime []),
    summarizeResult := .error (.runtime []),
    freshId := fun _ => [],
    now := [] }

/-- Witness for C1: approving the already-executed sample action is a
`ValidationError` and does not touch the store. -/
theorem C1_terminal_action_resolution_witness :
    get_pending_action sampleStoreC1 (chars "a1") = .ok sampleExecutedAction ∧
    resolve_pending_action sampleChatEnv sampleStoreC1 (chars "a1") true
      = (sampleStoreC1,
        .error (.validation (chars "action is not pending and cannot be resolved again"))) := by
  refine ⟨rfl, ?_⟩
  exact (C1_terminal_action_resolution sampleChatEnv sampleStoreC1 (chars "a1") true
    sampleExecutedAction rfl (Or.inr (Or.inl rfl))).1

/-! ## Message appending (claim C10) -/

theorem applyMessageUpdate_messages (message : OpsAgentMessage) (b : Bool) (now : Str)
    (c : OpsAgentConversation) :
    (applyMessageUpdate message b now c).messages = c.messages ++ [message] := by
  cases b <;> rfl

theorem applyMessageUpdate_id (message : OpsAgentMessage) (b : Bool) (now : Str)
    (c : OpsAgentConversation) :
    (applyMessageUpdate message b now c).id = c.id := by
  cases b <;> rfl

theorem applyMessageUpdate_title (message : OpsAgentMessage) (b : Bool) (now : Str)
    (c : OpsAgentConversation) :
    (applyMessageUpdate message b now c).title
      = (if b then derive_title_from_first_user_prompt message.content else c.title) := by
  cases b <;> rfl

/-- The success case of `append_message`, written out. -/
theorem append_message_ok (d : OpsAgentData) (conversationId : Str) (role : OpsAgentRole)
    (content : Str) (toolKind : Option OpsAgentToolKind) (newId now : Str)
    (conversation : OpsAgentConversation) (hne : trim content ≠ [])
    (hfound : d.conversations.find? (fun c => c.id == conversationId) = some conversation) :
    append_message d conversationId role content toolKind newId now
      = ({ d with
            conversations := updateFirst (fun c => c.id == conversationId)
              (applyMessageUpdate (mkStoredMessage newId role (trim content) toolKind now)
                (shouldAutoTitleFor role conversation) now)
              d.conversations,
            activeConversationId := some conversationId },
          .ok (mkStoredMessage newId role (trim content) toolKind now)) := by
  unfold append_message
  rw [if_neg hne, hfound]

/-- Claim C10: appending a blank message is a `ValidationError` that
leaves the store untouched; a non-blank message is stored with its
content trimmed, appended at the end of the conversation's list. -/
theorem C10_append_message_blank_and_trim (d : OpsAgentData) (conversationId : Str)
    (role : OpsAgentRole) (content : Str) (toolKind : Option OpsAgentToolKind)
    (newId now : Str) :
    (trim content = [] →
      append_message d conversationId role content toolKind newId now
        = (d, .error (.validation (chars "message content cannot be empty")))) ∧
    (trim content ≠ [] →
      ∀ conversation,
        d.conversations.find? (fun c => c.id == conversationId) = some conversation →
        (append_message d conversationId role content toolKind newId now).2
          = .ok (mkStoredMessage newId role (trim content) toolKind now) ∧
        ∃ conversation',
          (append_message d conversationId role content toolKind newId now).1.conversations.find?
              (fun c => c.id == conversationId) = some conversation' ∧
          conversation'.messages = conversation.messages
            ++ [mkStoredMessage newId role (trim content) toolKind now]) := by
  constructor
  · intro hblank
    unfold append_message
    rw [if_pos hblank]
  · intro hne conversation hfound
    have hp := List.find?_some hfound
    have heq := append_message_ok d conversationId role content toolKind newId now
      conversation hne hfound
    constructor
    · rw [heq]
    · rw [heq]
      refine ⟨_, find?_updateFirst_self _ _ _ _ hfound ?_, ?_⟩
      · rw [applyMessageUpdate_id]
        exact hp
      · exact applyMessageUpdate_messages _ _ _ _

/-- Witness for C10: appending a whitespace-only message to any store
is rejected with `ValidationError`. -/
theorem C10_append_message_blank_and_trim_witness :
    trim (chars "  ") = [] ∧
    append_message sampleStoreC1 (chars "c1") .user (chars "  ") none (chars "m1") []
      = (sampleStoreC1, .error (.validation (chars "message content cannot be empty"))) := by
  refine ⟨by decide, ?_⟩
  exact (C10_append_message_blank_and_trim sampleStoreC1 (chars "c1") .user (chars "  ")
    none (chars "m1") []).1 (by decide)

/-! ## Conversation title auto-derivation (claim C7) -/

theorem shouldAutoTitleFor_false_of_user_message (role : OpsAgentRole)
    (conversation : OpsAgentConversation)
    (h : ∃ msg ∈ conversation.messages, msg.role = OpsAgentRole.user) :
    shouldAutoTitleFor role conversation = false := by
  obtain ⟨msg, hmem, hrole⟩ := h
  have hany : conversation.messages.any (fun m => m.role == OpsAgentRole.user) = true :=
    List.any_eq_true.mpr ⟨msg, hmem, by rw [hrole]; rfl⟩
  simp [shouldAutoTitleFor, hany]

/-- Claim C7, as stated: the derivation rule takes the first 10
characters (newlines collapsed, ellipsis appended when truncated); the
first User message appended to a freshly created default-titled
conversation derives the title; and appending any further message to a
conversation that already holds a User message leaves the title
unchanged. -/
theorem C7_title_derived_once (d : OpsAgentData) (sessionId : Option Str) (newId now : Str)
    (hfresh : ∀ c ∈ d.conversations, (c.id == newId) = false) :
    derive_title_from_first_user_prompt (chars "abcdefghijklmnopqrstuvwxyz")
      = chars "abcdefghij..." ∧
    (∀ (m : Str) (toolKind : Option OpsAgentToolKind) (msgId msgNow : Str), trim m ≠ [] →
      ∃ conversation',
        (append_message (create_conversation d none sessionId newId now).1 newId
            OpsAgentRole.user m toolKind msgId msgNow).1.conversations.find?
            (fun c => c.id == newId) = some conversation' ∧
        conversation'.title = derive_title_from_first_user_prompt (trim m) ∧
        conversation'.messages
          = [mkStoredMessage msgId OpsAgentRole.user (trim m) toolKind msgNow]) ∧
    (∀ (d0 : OpsAgentData) (conversationId : Str) (conversation : OpsAgentConversation)
        (role : OpsAgentRole) (m : Str) (toolKind : Option OpsAgentToolKind)
        (msgId msgNow : Str),
      d0.conversations.find? (fun c => c.id == conversationId) = some conversation →
      (∃ msg ∈ conversation.messages, msg.role = OpsAgentRole.user) →
      ∃ conversation',
        (append_message d0 conversationId role m toolKind msgId msgNow).1.conversations.find?
            (fun c => c.id == conversationId) = some conversation' ∧
        conversation'.title = conversation.title ∧
        ∃ msg ∈ conversation'.messages, msg.role = OpsAgentRole.user) := by
  refine ⟨by decide, ?_, ?_⟩
  · intro m toolKind msgId msgNow hm
    have hfound0 : ((create_conversation d none sessionId newId now).1).conversations.find?
        (fun c => c.id == newId)
        = some (mkNewConversation none sessionId newId now) := by
      unfold create_conversation
      rw [List.find?_append, List.find?_eq_none.mpr ?_]
      · rw [Option.none_or]
        exact List.find?_cons_of_pos _ (by simp [mkNewConversation])
      · intro c hc
        rw [hfresh c hc]
        exact Bool.false_ne_true
    have heq := append_message_ok _ newId OpsAgentRole.user m toolKind msgId msgNow _ hm hfound0
    rw [heq]
    refine ⟨_, find?_updateFirst_self _ _ _ _ hfound0 ?_, ?_, ?_⟩
    · rw [applyMessageUpdate_id]
      simp [mkNewConversation]
    · rw [applyMessageUpdate_title]
      rfl
    · rw [applyMessageUpdate_messages]
      rfl
  · intro d0 conversationId conversation role m toolKind msgId msgNow hfound huser
    by_cases hm : trim m = []
    · have heq : append_message d0 conversationId role m toolKind msgId msgNow
          = (d0, .error (.validation (chars "message content cannot be empty"))) := by
        unfold append_message
        rw [if_pos hm]
      rw [heq]
      exact ⟨conversation, hfound, rfl, huser⟩
    · have heq := append_message_ok d0 conversationId role m toolKind msgId msgNow
        conversation hm hfound
      rw [heq]
      have hp := List.find?_some hfound
      refine ⟨_, find?_updateFirst_self _ _ _ _ hfound ?_, ?_, ?_⟩
      · rw [applyMessageUpdate_id]
        exact hp
      · rw [applyMessageUpdate_title, shouldAutoTitleFor_false_of_user_message role _ huser]
        rfl
      · rw [applyMessageUpdate_messages]
        obtain ⟨msg, hmem, hrole⟩ := huser
        exact ⟨msg, List.mem_append_left _ hmem, hrole⟩

/-- Witness for C7: the first User message
`"abcdefghijklmnopqrstuvwxyz"` appended to a fresh conversation yields
the title `"abcdefghij..."`. -/
theorem C7_title_derived_once_witness :
    trim (chars "abcdefghijklmnopqrstuvwxyz") ≠ [] ∧
    ∃ conversation',
      (append_message
          (create_conversation ⟨[], none, []⟩ none none (chars "cid") []).1 (chars "cid")
          OpsAgentRole.user (chars "abcdefghijklmnopqrstuvwxyz") none (chars "m1") []).1.conversations.find?
          (fun c => c.id == chars "cid") = some conversation' ∧
      conversation'.title = derive_title_from_first_user_prompt
        (trim (chars "abcdefghijklmnopqrstuvwxyz")) ∧
      conversation'.messages
        = [mkStoredMessage (chars "m1") OpsAgentRole.user
            (trim (chars "abcdefghijklmnopqrstuvwxyz")) none []] := by
  refine ⟨by decide, ?_⟩
  exact (C7_title_derived_once ⟨[], none, []⟩ none (chars "cid") []
    (by intro c hc; cases hc)).2.1
    (chars "abcdefghijklmnopqrstuvwxyz") none (chars "m1") [] (by decide)

/-! ## Planner normalization and dispatch (claim C3) -/

/-- Claim C3, amended: a missing or blank tool command forces the
normalized kind to `None` whatever kind string the planner supplied,
and dispatch on such a plan touches nothing — no tool execution, no
pending action, no mid-run event — and answers with the planner's
reply, or with the generic fallback when the reply is blank. -/
theorem C3_blank_command_forces_none (payload : PlanPayload)
    (hblank : ∀ cmd, (payload.tool.getD ⟨some (chars "none"), none, none⟩).command = some cmd →
      trim cmd = []) :
    (normalize_planned_reply payload).tool.kind = OpsAgentToolKind.none ∧
    (normalize_planned_reply payload).tool.command = none ∧
    (∀ (env : ChatEnv) (d : OpsAgentData) (runId conversationId : Str)
        (sessionId : Option Str),
      dispatch_tool env d runId conversationId sessionId (normalize_planned_reply payload)
        = (d, [], .ok (none, normalized_reply (normalize_planned_reply payload).reply
            (chars "收到，我来帮你处理这个运维问题。")))) := by
  have hcmd : ((payload.tool.getD ⟨some (chars "none"), none, none⟩).command.bind
      (fun item =>
        let trimmed := trim item
        if trimmed = [] then Option.none else some trimmed)) = none := by
    cases hc : (payload.tool.getD ⟨some (chars "none"), none, none⟩).command with
    | none => rfl
    | some cmd =>
      show (let trimmed := trim cmd
        if trimmed = [] then Option.none else some trimmed) = none
      simp only []
      rw [if_pos (hblank cmd hc)]
  have hkind : (normalize_planned_reply payload).tool.kind = OpsAgentToolKind.none := by
    simp only [normalize_planned_reply, hcmd, if_true]
  have hcommand : (normalize_planned_reply payload).tool.command = none := by
    simp only [normalize_planned_reply, hcmd]
  refine ⟨hkind, hcommand, ?_⟩
  intro env d runId conversationId sessionId
  unfold dispatch_tool
  rw [hkind]

/-- Witness for C3: the planner payload claiming `read_shell` with an
empty command normalizes to tool kind `None` with no command. -/
theorem C3_blank_command_forces_none_witness :
    (normalize_planned_reply ⟨some (chars "ok"),
        some ⟨some (chars "read_shell"), some [], some (chars "x")⟩⟩).tool.kind
      = OpsAgentToolKind.none ∧
    (normalize_planned_reply ⟨some (chars "ok"),
        some ⟨some (chars "read_shell"), some [], some (chars "x")⟩⟩).tool.command
      = none := by
  have h := C3_blank_command_forces_none
    ⟨some (chars "ok"), some ⟨some (chars "read_shell"), some [], some (chars "x")⟩⟩
    (by intro cmd hc; injection hc with h2; rw [← h2]; rfl)
  exact ⟨h.1, h.2.1⟩

/-- Counterexample to C3 as stated: on the payload
`reply "ok", kind "read_shell", command ""` the dispatched answer is
the planner's reply `"ok"`, not the "no usable command" fallback nor
the generic fallback. -/
theorem C3_counterexample :
    (dispatch_tool sampleChatEnv ⟨[], none, []⟩ (chars "r") (chars "c") none
        (normalize_planned_reply ⟨some (chars "ok"),
          some ⟨some (chars "read_shell"), some [], some (chars "x")⟩⟩)).2.2
      = .ok (none, chars "ok") ∧
    chars "ok" ≠ chars "我没有拿到可执行的 read_shell 命令，请补充需求后重试。" ∧
    chars "ok" ≠ chars "收到，我来帮你处理这个运维问题。" := by
  refine ⟨rfl, by decide, by decide⟩

/-! ## Planner reply extraction (claim C8) -/

theorem findCharIdx_spec (c : Char) (s : Str) (i : Nat) (h : findCharIdx c s = some i) :
    ∃ pre post, s = pre ++ c :: post ∧ pre.length = i ∧ ∀ x ∈ pre, x ≠ c := by
  induction s generalizing i with
  | nil => simp [findCharIdx] at h
  | cons x xs ih =>
    by_cases hx : x = c
    · subst hx
      simp [findCharIdx] at h
      subst h
      exact ⟨[], xs, rfl, rfl, by intro y hy; cases hy⟩
    · simp only [findCharIdx, if_neg hx] at h
      cases hfx : findCharIdx c xs with
      | none => rw [hfx] at h; simp at h
      | some j =>
        rw [hfx] at h
        simp only [Option.map_some', Option.some_inj] at h
        obtain ⟨pre, post, hs, hlen, hpre⟩ := ih j hfx
        refine ⟨x :: pre, post, by rw [hs, List.cons_append],
          by simp only [List.length_cons, hlen]; omega, ?_⟩
        intro y hy
        rcases List.mem_cons.mp hy with rfl | hy2
        · exact hx
        · exact hpre y hy2

/-- The span produced by `extract_json_payload`: a brace-delimited
contiguous slice of the trimmed reply with no `\x7b` before it and no
`\x7d` after it — i.e. from the first opening to the last closing
brace. -/
theorem extract_json_payload_span (raw s : Str)
    (h : extract_json_payload raw = some s) :
    ∃ pre post, trim raw = pre ++ s ++ post ∧
      s.head? = some '{' ∧ s.getLast? = some '}' ∧
      (∀ x ∈ pre, x ≠ '{') ∧ (∀ x ∈ post, x ≠ '}') := by
  unfold extract_json_payload at h
  by_cases hb : (trim raw).head? = some '{' ∧ (trim raw).getLast? = some '}'
  · rw [if_pos hb] at h
    injection h with h
    subst h
    refine ⟨[], [], by simp, hb.1, hb.2, ?_, ?_⟩
    · intro x hx
      cases hx
    · intro x hx
      cases hx
  · rw [if_neg hb] at h
    cases hf : findCharIdx '{' (trim raw) with
    | none => rw [hf] at h; exact absurd h (by simp)
    | some i =>
      cases hfr : findCharIdx '}' (trim raw).reverse with
      | none =>
        rw [hf] at h
        unfold rfindCharIdx at h
        rw [hfr] at h
        exact absurd h (by simp)
      | some ir =>
        have hr : rfindCharIdx '}' (trim raw) = some ((trim raw).length - 1 - ir) := by
          unfold rfindCharIdx
          rw [hfr]
          rfl
        rw [hf, hr] at h
        have h2 : (if i < (trim raw).length - 1 - ir then
            some (List.take ((trim raw).length - 1 - ir - i + 1) (List.drop i (trim raw)))
          else none) = some s := h
        by_cases hij : i < (trim raw).length - 1 - ir
        · rw [if_pos hij] at h2
          injection h2 with h
          obtain ⟨pre, post1, hs1, hlen1, hpre⟩ := findCharIdx_spec '{' (trim raw) i hf
          obtain ⟨preR, postR, hsR, hlenR, hpreR⟩ :=
            findCharIdx_spec '}' (trim raw).reverse ir hfr
          set t := trim raw with ht
          set j := t.length - 1 - ir with hj
          have htR : t = postR.reverse ++ '}' :: preR.reverse := by
            have := congrArg List.reverse hsR
            simpa [List.reverse_append] using this
          have hlt : t.length = postR.length + 1 + ir := by
            have := congrArg List.length hsR
            simp [hlenR] at this
            simp [this]
            omega
          have hjlen : j = postR.length := by omega
          have hdropi : t.drop i = '{' :: post1 := by
            rw [hs1, ← hlen1, List.drop_left]
          have hdropj : t.drop (j + 1) = preR.reverse := by
            have : t = (postR.reverse ++ ['}']) ++ preR.reverse := by
              rw [htR]
              simp
            rw [this]
            have hlen2 : (postR.reverse ++ ['}']).length = j + 1 := by
              simp [hjlen]
            rw [← hlen2, List.drop_left]
          have hslen : s = '{' :: post1.take (j - i) := by
            rw [← h, hdropi]
            rfl
          have hdd : (t.drop i).drop (j - i + 1) = t.drop (j + 1) := by
            rw [List.drop_drop]
            congr 1
            omega
          have hsplit : t.drop i = s ++ preR.reverse := by
            conv_lhs => rw [← List.take_append_drop (j - i + 1) (t.drop i)]
            rw [← h, hdd, hdropj]
          have htake : t.take i = pre := by
            rw [hs1, ← hlen1, List.take_left]
          have hti : t = pre ++ s ++ preR.reverse := by
            conv_lhs => rw [← List.take_append_drop i t]
            rw [htake, hsplit, List.append_assoc]
          have hcancel : pre ++ s = postR.reverse ++ ['}'] := by
            have heq2 : (pre ++ s) ++ preR.reverse
                = (postR.reverse ++ ['}']) ++ preR.reverse := by
              rw [← hti, htR]
              simp
            exact List.append_cancel_right heq2
          have hlast : s.getLast? = some '}' := by
            have h1 : (pre ++ s).getLast? = s.getLast? :=
              List.getLast?_append_of_ne_nil pre (by rw [hslen]; exact List.cons_ne_nil _ _)
            rw [hcancel] at h1
            rw [← h1, List.getLast?_concat]
          refine ⟨pre, preR.reverse, hti, by rw [hslen]; rfl, hlast, hpre, ?_⟩
          intro x hx
          exact hpreR x (List.mem_reverse.mp hx)
        · rw [if_neg hij] at h2
          exact absurd h2 (by simp)

/-- Claim C8, amended: plan parsing never fails the turn: the span
from the first opening to the last closing brace of the trimmed reply
(the whole trimmed reply when already brace-delimited) is handed to
the JSON decoder, and when nothing decodes, the raw text becomes the
reply with tool kind `None` and no command or reason. -/
theorem C8_parse_plan_tolerance (decode : Str → Option PlanPayload) (raw : Str) :
    (∃ p, parse_plan_payload decode raw = .ok p) ∧
    (decode ((extract_json_payload raw).getD (trim raw)) = none →
      parse_plan_payload decode raw
        = .ok ⟨trim raw, ⟨OpsAgentToolKind.none, none, none⟩⟩) ∧
    (∀ s, extract_json_payload raw = some s →
      ∃ pre post, trim raw = pre ++ s ++ post ∧
        s.head? = some '{' ∧ s.getLast? = some '}' ∧
        (∀ x ∈ pre, x ≠ '{') ∧ (∀ x ∈ post, x ≠ '}')) := by
  refine ⟨?_, ?_, fun s hs => extract_json_payload_span raw s hs⟩
  · cases hd : decode ((extract_json_payload raw).getD (trim raw)) with
    | some p =>
      exact ⟨normalize_planned_reply p, by simp only [parse_plan_payload, hd]⟩
    | none =>
      exact ⟨⟨trim raw, ⟨OpsAgentToolKind.none, none, none⟩⟩,
        by simp only [parse_plan_payload, hd]⟩
  · intro hd
    simp only [parse_plan_payload, hd]

/-- Witness for C8: a decoder that rejects everything degrades the
reply `"hello"` to the raw-text fallback plan. -/
theorem C8_parse_plan_tolerance_witness :
    ((fun _ : Str => (none : Option PlanPayload))
        ((extract_json_payload (chars "hello")).getD (trim (chars "hello"))) = none) ∧
    parse_plan_payload (fun _ => none) (chars "hello")
      = .ok ⟨trim (chars "hello"), ⟨OpsAgentToolKind.none, none, none⟩⟩ :=
  ⟨rfl, (C8_parse_plan_tolerance (fun _ => none) (chars "hello")).2.1 rfl⟩

/-- Counterexample to C8 as stated: on `"a\x7b1\x7db\x7b2\x7dc"` the
code extracts the first-to-last brace span, not the first balanced
brace group. -/
theorem C8_counterexample :
    extract_json_payload (chars "a{1}b{2}c") = some (chars "{1}b{2}") ∧
    firstBalancedBraces (chars "a{1}b{2}c") = some (chars "{1}") ∧
    (some (chars "{1}b{2}") : Option Str) ≠ some (chars "{1}") := by
  refine ⟨by decide, by decide, by decide⟩

/-! ## Stream event ordering (claims C6 and C9) -/

set_option maxHeartbeats 1600000 in
theorem dispatch_tool_events (env : ChatEnv) (d : OpsAgentData) (runId conversationId : Str)
    (sessionId : Option Str) (plan : PlannedAgentReply) :
    (dispatch_tool env d runId conversationId sessionId plan).2.1 = [] ∨
    (∃ c, (dispatch_tool env d runId conversationId sessionId plan).2.1
      = [mkToolReadEvent runId conversationId c env.now]) ∨
    (∃ a, (dispatch_tool env d runId conversationId sessionId plan).2.1
      = [mkApprovalEvent runId conversationId a env.now]) := by
  unfold dispatch_tool
  repeat' split
  all_goals try simp only []
  all_goals
    first
    | exact Or.inl trivial
    | exact Or.inl rfl
    | exact Or.inr (Or.inl ⟨_, rfl⟩)
    | exact Or.inr (Or.inr ⟨_, rfl⟩)

theorem process_chat_stream_shape (env : ChatEnv) (d : OpsAgentData)
    (runId conversationId : Str) (sessionId : Option Str) :
    ∃ mid : List OpsAgentStreamEvent,
      (mid = [] ∨ (∃ c, mid = [mkToolReadEvent runId conversationId c env.now]) ∨
        (∃ a, mid = [mkApprovalEvent runId conversationId a env.now])) ∧
      ((∃ e, (process_chat_stream env d runId conversationId sessionId).2.2 = .error e ∧
          (process_chat_stream env d runId conversationId sessionId).2.1
            = mkStartedEvent runId conversationId env.now :: mid) ∨
       (∃ answer pending,
          (process_chat_stream env d runId conversationId sessionId).2.2 = .ok () ∧
          (process_chat_stream env d runId conversationId sessionId).2.1
            = mkStartedEvent runId conversationId env.now :: mid
              ++ stream_text_response runId conversationId answer env.now
              ++ [mkCompletedEvent runId conversationId answer pending env.now])) := by
  unfold process_chat_stream
  split
  · exact ⟨[], Or.inl rfl, Or.inl ⟨_, rfl, rfl⟩⟩
  · split
    · exact ⟨[], Or.inl rfl, Or.inl ⟨_, rfl, rfl⟩⟩
    · rename_i plan hplan
      split
      · rename_i d1 midEv e heq
        have hd := dispatch_tool_events env d runId conversationId sessionId plan
        rw [heq] at hd
        refine ⟨midEv, ?_, Or.inl ⟨e, rfl, rfl⟩⟩
        simpa using hd
      · rename_i d1 midEv pending answer heq
        have hd := dispatch_tool_events env d runId conversationId sessionId plan
        rw [heq] at hd
        split
        · rename_i d2 e heq2
          refine ⟨midEv, ?_, Or.inl ⟨e, rfl, rfl⟩⟩
          simpa using hd
        · refine ⟨midEv, ?_, Or.inr ⟨answer, pending, rfl, rfl⟩⟩
          simpa using hd

theorem run_chat_stream_events (env : ChatEnv) (d : OpsAgentData)
    (runId conversationId : Str) (sessionId : Option Str) :
    (run_chat_stream env d runId conversationId sessionId).2
      = (process_chat_stream env d runId conversationId sessionId).2.1
        ++ (match (process_chat_stream env d runId conversationId sessionId).2.2 with
            | .ok _ => []
            | .error e => [mkErrorEvent runId conversationId e env.now]) := by
  unfold run_chat_stream
  rcases hproc : process_chat_stream env d runId conversationId sessionId with ⟨d', evs, r⟩
  cases r with
  | ok u => cases u; simp
  | error e => simp

theorem map_stage_delta (l : List Str) (runId conversationId now : Str) :
    (l.map (fun c => mkDeltaEvent runId conversationId c now)).map (fun e => e.stage)
      = List.replicate l.length OpsAgentStreamStage.delta := by
  induction l with
  | nil => rfl
  | cons a t ih =>
    simp only [List.map_cons, List.length_cons, List.replicate_succ]
    rw [ih]
    rfl

theorem stream_text_response_stages (runId conversationId text now : Str) :
    (stream_text_response runId conversationId text now).map (fun e => e.stage)
      = List.replicate (split_stream_chunks text 36).length OpsAgentStreamStage.delta := by
  unfold stream_text_response
  exact map_stage_delta _ runId conversationId now

theorem mkStartedEvent_stage (runId conversationId now : Str) :
    (mkStartedEvent runId conversationId now).stage = OpsAgentStreamStage.started := rfl

theorem mkToolReadEvent_stage (runId conversationId command now : Str) :
    (mkToolReadEvent runId conversationId command now).stage
      = OpsAgentStreamStage.toolRead := rfl

theorem mkApprovalEvent_stage (runId conversationId : Str) (a : OpsAgentPendingAction)
    (now : Str) :
    (mkApprovalEvent runId conversationId a now).stage
      = OpsAgentStreamStage.requiresApproval := rfl

theorem mkCompletedEvent_stage (runId conversationId answer : Str)
    (p : Option OpsAgentPendingAction) (now : Str) :
    (mkCompletedEvent runId conversationId answer p now).stage
      = OpsAgentStreamStage.completed := rfl

theorem mkErrorEvent_stage (runId conversationId : Str) (e : AppError) (now : Str) :
    (mkErrorEvent runId conversationId e now).stage = OpsAgentStreamStage.error := rfl

/-- Claim C6, amended: every run emits `Started` first, then at most
one `ToolRead` or `RequiresApproval`, then zero or more `Delta`
events, then exactly one terminal event; the terminal event is
`Completed` on success, and on failure it is a single `Error` that
replaces all remaining events (no `Delta`, no `Completed`) — but the
events already emitted before the failure, `Started` included, do
precede it. -/
theorem C6_stream_event_order (env : ChatEnv) (d : OpsAgentData)
    (runId conversationId : Str) (sessionId : Option Str) :
    ∃ (mid : List OpsAgentStreamStage) (n : Nat) (last : OpsAgentStreamStage),
      ((run_chat_stream env d runId conversationId sessionId).2).map (fun e => e.stage)
        = OpsAgentStreamStage.started
          :: (mid ++ (List.replicate n OpsAgentStreamStage.delta ++ [last])) ∧
      (mid = [] ∨ mid = [OpsAgentStreamStage.toolRead]
        ∨ mid = [OpsAgentStreamStage.requiresApproval]) ∧
      (last = OpsAgentStreamStage.completed
        ∨ (last = OpsAgentStreamStage.error ∧ n = 0)) := by
  obtain ⟨midE, hmidE, hcase⟩ := process_chat_stream_shape env d runId conversationId sessionId
  rw [run_chat_stream_events]
  rcases hcase with ⟨e, herr, hev⟩ | ⟨answer, pending, hok, hev⟩
  · rw [hev, herr]
    rcases hmidE with rfl | ⟨c, rfl⟩ | ⟨a, rfl⟩
    · exact ⟨[], 0, OpsAgentStreamStage.error,
        by simp [mkStartedEvent_stage, mkErrorEvent_stage],
        Or.inl rfl, Or.inr ⟨rfl, rfl⟩⟩
    · exact ⟨[OpsAgentStreamStage.toolRead], 0, OpsAgentStreamStage.error,
        by simp [mkStartedEvent_stage, mkErrorEvent_stage, mkToolReadEvent_stage],
        Or.inr (Or.inl rfl), Or.inr ⟨rfl, rfl⟩⟩
    · exact ⟨[OpsAgentStreamStage.requiresApproval], 0, OpsAgentStreamStage.error,
        by simp [mkStartedEvent_stage, mkErrorEvent_stage, mkApprovalEvent_stage],
        Or.inr (Or.inr rfl), Or.inr ⟨rfl, rfl⟩⟩
  · rw [hev, hok]
    rcases hmidE with rfl | ⟨c, rfl⟩ | ⟨a, rfl⟩
    · exact ⟨[], (split_stream_chunks answer 36).length, OpsAgentStreamStage.completed,
        by simp [mkStartedEvent_stage, mkCompletedEvent_stage, stream_text_response_stages],
        Or.inl rfl, Or.inl rfl⟩
    · exact ⟨[OpsAgentStreamStage.toolRead], (split_stream_chunks answer 36).length,
        OpsAgentStreamStage.completed,
        by simp [mkStartedEvent_stage, mkCompletedEvent_stage, mkToolReadEvent_stage,
          stream_text_response_stages],
        Or.inr (Or.inl rfl), Or.inl rfl⟩
    · exact ⟨[OpsAgentStreamStage.requiresApproval], (split_stream_chunks answer 36).length,
        OpsAgentStreamStage.completed,
        by simp [mkStartedEvent_stage, mkCompletedEvent_stage, mkApprovalEvent_stage,
          stream_text_response_stages],
        Or.inr (Or.inr rfl), Or.inl rfl⟩

/-- Counterexample to C6 as stated: a run whose history load (or
planner call) fails emits `Started` and then `Error` — the stream is
not replaced wholesale by a single `Error` event. -/
theorem C6_counterexample :
    ((run_chat_stream sampleChatEnv ⟨[], none, []⟩ (chars "r") (chars "c") none).2).map
        (fun e => e.stage)
      = [OpsAgentStreamStage.started, OpsAgentStreamStage.error] ∧
    ((run_chat_stream sampleChatEnv ⟨[], none, []⟩ (chars "r") (chars "c") none).2).length
      ≠ 1 := by
  exact ⟨rfl, by decide⟩

theorem map_chunk_delta (l : List Str) (runId conversationId now : Str) :
    (l.map (fun c => mkDeltaEvent runId conversationId c now)).map (fun e => e.chunk)
      = l.map some := by
  induction l with
  | nil => rfl
  | cons a t ih =>
    simp only [List.map_cons, ih]
    rfl

theorem stream_text_response_chunks (runId conversationId text now : Str) :
    (stream_text_response runId conversationId text now).map (fun e => e.chunk)
      = (split_stream_chunks text 36).map some := by
  unfold stream_text_response
  exact map_chunk_delta _ runId conversationId now

/-- Claim C9: the assistant answer is emitted as `Delta` events whose
chunks are the 36-character pieces of the answer in order — every
chunk but the last has exactly 36 characters, none is empty or longer
than 36, their concatenation is the answer, and an empty answer yields
no `Delta` at all — and every successful run ends with a single
`Completed` event carrying the full answer right after those deltas. -/
theorem C9_answer_chunking (env : ChatEnv) (d : OpsAgentData)
    (runId conversationId : Str) (sessionId : Option Str) :
    (∀ text : Str,
      (stream_text_response runId conversationId text env.now).map (fun e => e.chunk)
        = (split_stream_chunks text 36).map some ∧
      (split_stream_chunks text 36).flatten = text ∧
      (∀ chunk ∈ (split_stream_chunks text 36).dropLast, chunk.length = 36) ∧
      (∀ chunk ∈ split_stream_chunks text 36, chunk ≠ [] ∧ chunk.length ≤ 36) ∧
      (text = [] → stream_text_response runId conversationId text env.now = [])) ∧
    ((process_chat_stream env d runId conversationId sessionId).2.2 = .ok () →
      ∃ answer pending mid,
        (process_chat_stream env d runId conversationId sessionId).2.1
          = mkStartedEvent runId conversationId env.now :: mid
            ++ stream_text_response runId conversationId answer env.now
            ++ [mkCompletedEvent runId conversationId answer pending env.now] ∧
        (mkCompletedEvent runId conversationId answer pending env.now).fullAnswer
          = some answer) := by
  constructor
  · intro text
    refine ⟨stream_text_response_chunks runId conversationId text env.now,
      split_stream_chunks_flatten text 36 (by decide),
      split_stream_chunks_dropLast text 36 (by decide),
      split_stream_chunks_mem text 36 (by decide), ?_⟩
    intro h
    rw [h]
    simp [stream_text_response, split_stream_chunks_nil]
  · intro hok
    obtain ⟨mid, hmid, hcase⟩ := process_chat_stream_shape env d runId conversationId sessionId
    rcases hcase with ⟨e, herr, _⟩ | ⟨answer, pending, _, hev⟩
    · rw [hok] at herr
      exact Except.noConfusion herr
    · exact ⟨answer, pending, mid, hev, rfl⟩

/-- Witness for C9: the chunks of the three-character answer `"abc"`
concatenate back to it. -/
theorem C9_answer_chunking_witness :
    (split_stream_chunks (chars "abc") 36).flatten = chars "abc" :=
  ((C9_answer_chunking sampleChatEnv ⟨[], none, []⟩ (chars "r") (chars "c") none).1
    (chars "abc")).2.1

/-- The concrete session, registry and SSH oracle used by the C2
witness: one session at `/root`, a remote that answers the expected
`cd` chain with `/root/work` and exit 0. -/
def sampleSessionC2 : ShellSession :=
  { id := chars "s1", configId := [], configName := [],
    currentDir := chars "/root", lastOutput := [], createdAt := [], updatedAt := [] }

/-- See `sampleSessionC2`. -/
def sampleStateC2 : AppState :=
  { sessions := [sampleSessionC2], statusCacheIds := [], ptyChannelIds := [] }

/-- See `sampleSessionC2`. -/
def sampleSshEnvC2 : SshEnv :=
  { findConfig := .ok (), connectResult := .ok (),
    run := fun c =>
      if c = mkCdCommand (chars "/root") (chars "work")
      then .ok (chars "/root/work\n", [], 0) else .ok ([], [], 1),
    now := chars "T", elapsedMs := 0 }

/-- Witness for C2: `cd work` from `/root` updates the session's
directory to the sanitized printed `/root/work`. -/
theorem C2_cd_tracking_witness :
    (execute_command sampleSshEnvC2 sampleStateC2 (chars "s1") (chars "cd work")).1.get_session
        (chars "s1")
      = .ok {
          id := chars "s1", configId := [], configName := [],
          currentDir := chars "/root/work", lastOutput := chars "/root/work",
          createdAt := [], updatedAt := chars "T" } := by
  have h := (C2_cd_tracking sampleSshEnvC2 sampleStateC2 (chars "s1") (chars "cd work")
    sampleSessionC2 (some (chars "work")) (chars "/root/work\n") [] 0
    rfl rfl rfl (by decide) rfl).1 rfl
  rw [h.1]
  rfl

end EShell
